import Mathlib

/-!
Verification of the `ibson` BSON codec (Python) against its specification.

This file contains a shallow embedding of the code in `src/ibson/`:
  * `codec_util.py` — the struct pack/unpack primitives and `DocumentFrame`,
  * `encoder.py`    — `BSONEncoder` (`dumps`/`dump`, `write_*`,
                      `_write_length_for_frame`, `_write_raw_key`),
  * `decoder.py`    — the parse primitives (`parse_int32`, `parse_ename`, ...),
                      `BSONScanner` (`register_opcode`, `iterdecode`,
                      `process_opcode`) and `BSONDecoder` (`loads`/`load`),
followed by theorems settling the claims about that code.

Modelling conventions:
  * A Python `io.BytesIO` stream is a `Stream`: a byte list plus a cursor.
    `write` overwrites at the cursor (zero padding if past the end),
    `read`/`seek`/`tell` follow `BytesIO` semantics.
  * Python `str` values are modelled by their UTF-8 byte sequences,
    Python `bytes` by byte lists, machine integers by `Int`/`Nat` with
    explicit range checks where `struct.pack`/`unpack` enforce them.
  * Python exceptions are values of `PyErr`; fallible code returns
    `Except PyErr _`.  `struct.error`, `TypeError`, `AttributeError`,
    assertion failures etc. are distinct constructors.
  * The iterative, explicit-stack encoder generator (`_encode_generator`)
    is rendered as structural recursion over the value tree: the Python
    deque *is* the recursion stack (one frame per open container), so the
    byte-level behaviour is identical.
  * The decode generator `iterdecode` is rendered as an explicit state
    machine (`iterdecode_init` / `iterdecode_next`), with the consumer's
    `send` directive passed to `iterdecode_next`; frames live in an arena
    so that consumer-side mutation of yielded frames (`load`) is faithful
    to Python object aliasing.
-/

namespace Ibson

/-! ## Streams (`io.BytesIO`) -/

/-- An in-memory byte stream: the buffer and the current cursor. -/
structure Stream where
  data : List Nat
  pos : Nat
deriving Repr, DecidableEq

/-- `BytesIO.write`: overwrite at the cursor, zero-padding if the cursor is
past the end of the buffer; the cursor advances past the written bytes. -/
def Stream.write (st : Stream) (bs : List Nat) : Stream :=
  { data := st.data.take st.pos ++ List.replicate (st.pos - st.data.length) 0
      ++ bs ++ st.data.drop (st.pos + bs.length),
    pos := st.pos + bs.length }

/-- `BytesIO.read(n)`: return up to `n` bytes from the cursor and advance. -/
def Stream.read (st : Stream) (n : Nat) : List Nat × Stream :=
  ((st.data.drop st.pos).take n,
   { st with pos := min (st.pos + n) st.data.length })

/-- `BytesIO.tell()`. -/
def Stream.tell (st : Stream) : Nat := st.pos

/-- `BytesIO.seek(target)` (absolute). -/
def Stream.seekAbs (st : Stream) (target : Nat) : Stream :=
  { st with pos := target }

/-! ## Python exception values -/

/-- The Python exceptions the embedded code can raise.
`BSONEncodeError` carries the (possibly stack-annotated) key as UTF-8
bytes.  `nonTermination` marks the one spot (`parse_ename` at end of
stream with no terminator) where the Python source loops forever. -/
inductive PyErr where
  | typeError
  | attributeError
  | structError
  | assertionError
  | indexError
  | nameError
  | valueError
  | unicodeDecodeError
  | genericException
  | nonTermination
  | bsonEncodeError (key : List Nat)
deriving Repr, DecidableEq

/-! ## `codec_util.py`: struct pack/unpack primitives -/

/-- Little-endian 4-byte rendering of a natural number (low 32 bits). -/
def le4 (n : Nat) : List Nat :=
  [n % 256, n / 256 % 256, n / 65536 % 256, n / 16777216 % 256]

/-- Little-endian 8-byte rendering of a natural number (low 64 bits). -/
def le8 (n : Nat) : List Nat :=
  [n % 256, n / 256 % 256, n / 65536 % 256, n / 16777216 % 256,
   n / 4294967296 % 256, n / 1099511627776 % 256,
   n / 281474976710656 % 256, n / 72057594037927936 % 256]

/-- `INT32_STRUCT.pack` (`struct.Struct('<i')`): little-endian signed
32-bit; raises `struct.error` when the value does not fit. -/
def packInt32 (v : Int) : Except PyErr (List Nat) :=
  if -2147483648 ≤ v ∧ v ≤ 2147483647 then
    .ok (le4 (v % 4294967296).toNat)
  else .error .structError

/-- `INT64_STRUCT.pack` (`struct.Struct('<q')`): little-endian signed
64-bit; raises `struct.error` when the value does not fit. -/
def packInt64 (v : Int) : Except PyErr (List Nat) :=
  if -9223372036854775808 ≤ v ∧ v ≤ 9223372036854775807 then
    .ok (le8 (v % 18446744073709551616).toNat)
  else .error .structError

/-- `INT32_STRUCT.unpack`: requires exactly 4 bytes, reassembles a signed
little-endian 32-bit integer. -/
def unpackInt32 (bs : List Nat) : Except PyErr Int :=
  match bs with
  | [b0, b1, b2, b3] =>
    let n := b0 + 256 * b1 + 65536 * b2 + 16777216 * b3
    .ok (if n < 2147483648 then (n : Int) else (n : Int) - 4294967296)
  | _ => .error .structError

/-- `INT64_STRUCT.unpack`: requires exactly 8 bytes, reassembles a signed
little-endian 64-bit integer. -/
def unpackInt64 (bs : List Nat) : Except PyErr Int :=
  match bs with
  | [b0, b1, b2, b3, b4, b5, b6, b7] =>
    let n := b0 + 256 * b1 + 65536 * b2 + 16777216 * b3
      + 4294967296 * b4 + 1099511627776 * b5
      + 281474976710656 * b6 + 72057594037927936 * b7
    .ok (if n < 9223372036854775808 then (n : Int)
         else (n : Int) - 18446744073709551616)
  | _ => .error .structError

/-- `UINT64_STRUCT.unpack` (`'<Q'`): unsigned variant. -/
def unpackUint64 (bs : List Nat) : Except PyErr Int :=
  match bs with
  | [b0, b1, b2, b3, b4, b5, b6, b7] =>
    .ok ((b0 + 256 * b1 + 65536 * b2 + 16777216 * b3
      + 4294967296 * b4 + 1099511627776 * b5
      + 281474976710656 * b6 + 72057594037927936 * b7 : Nat) : Int)
  | _ => .error .structError

/-- `BYTE_STRUCT.unpack` (`'B'`): requires exactly one byte. -/
def unpackByte (bs : List Nat) : Except PyErr Nat :=
  match bs with
  | [b] => .ok b
  | _ => .error .structError

/-- Python exception propagation: run the continuation on a successful
result, let a raised exception propagate. -/
def eBind (x : Except PyErr α) (f : α → Except PyErr β) : Except PyErr β :=
  match x with
  | .ok a => f a
  | .error e => .error e

/-! ## The Python value tree handed to the encoder

The constructors mirror the runtime types `BSONEncoder.write_value` and
`BSONEncoder.dump` dispatch on.  A Python `str` is its UTF-8 byte list; a
`float` is its IEEE-754 bit pattern (the encoder only moves those 8 bytes
around); a `datetime` is abstracted by `int(1000 * dt.timestamp())`, the
only quantity `write_datetime` consumes. -/

inductive PyKey where
  | str (s : List Nat)
  | bytes (b : List Nat)
  | int (n : Int)
deriving Repr, DecidableEq

inductive PyValue where
  | none
  | bool (b : Bool)
  | int (n : Int)
  | float (bits : List Nat)
  | datetime (ms : Int)
  | str (s : List Nat)
  | uuid (bytes16 : List Nat)
  | bytes (b : List Nat)
  | doc (items : List (PyKey × PyValue))
  | arr (elems : List PyValue)

/-- `isinstance(val, bool)`. -/
def isinstance_bool : PyValue → Bool
  | .bool _ => true
  | _ => false

/-- `isinstance(val, int)`: in Python, `bool` is a subclass of `int`, so
boolean values also satisfy this check — which is why the source checks
`bool` first. -/
def isinstance_int : PyValue → Bool
  | .bool _ => true
  | .int _ => true
  | _ => false

/-- `int(val)` on the values `isinstance_int` accepts. -/
def asInt : PyValue → Int
  | .bool b => if b then 1 else 0
  | .int n => n
  | _ => 0

/-- The boolean carried by a `bool` value. -/
def asBool : PyValue → Bool
  | .bool b => b
  | _ => false

/-- Decimal digits of a natural number (`str(n)` for `n ≥ 0`). -/
def decimalDigits (n : Nat) : List Nat :=
  (Nat.toDigits 10 n).map Char.toNat

/-- `str(n)` for a Python int, as UTF-8 bytes. -/
def intToStr (n : Int) : List Nat :=
  if n < 0 then 45 :: decimalDigits n.natAbs else decimalDigits n.toNat

/-- `str(key)`-style rendering of a key (used for the key recorded inside
a `BSONEncodeError`). -/
def fmtKey : PyKey → List Nat
  | .str s => s
  | .bytes b => b
  | .int n => intToStr n

/-! ## `encoder.py` -/

/-- `_INT32_LOWERBOUND = -2 ** 31` (encoder.py line 39). -/
def INT32_LOWERBOUND : Int := -2147483648

/-- `_INT32_UPPERBOUND = 2 ** 32 - 1` (encoder.py line 40): note this is
the *unsigned* upper bound, kept exactly as the source has it. -/
def INT32_UPPERBOUND : Int := 4294967295

/-- `BSONEncoder._write_raw_key`: bytes are written as-is, ints are
stringified, strings are UTF-8 encoded; a null terminator follows. -/
def write_raw_key (key : PyKey) (st : Stream) : Stream :=
  match key with
  | .bytes b => (st.write b).write [0]
  | .int n => (st.write (intToStr n)).write [0]
  | .str s => (st.write s).write [0]

/-- The bytes `_write_raw_key` emits for a key: the key's wire form
followed by the null terminator. -/
def rawKeyBytes (key : PyKey) : List Nat :=
  match key with
  | .bytes b => b ++ [0]
  | .int n => intToStr n ++ [0]
  | .str s => s ++ [0]

/-- `BSONEncoder.write_int32`: tag `0x10`, key, packed int32 payload. -/
def write_int32 (key : PyKey) (v : Int) (st : Stream) : Except PyErr Stream :=
  let st2 := write_raw_key key (st.write [0x10])
  eBind (packInt32 v) (fun bs => .ok (st2.write bs))

/-- `BSONEncoder.write_int64`: tag `0x12`, key, packed int64 payload. -/
def write_int64 (key : PyKey) (v : Int) (st : Stream) : Except PyErr Stream :=
  let st2 := write_raw_key key (st.write [0x12])
  eBind (packInt64 v) (fun bs => .ok (st2.write bs))

/-- `BSONEncoder.write_float`: tag `0x01`, key, the float's 8 bytes
(`DOUBLE_STRUCT.pack` of a Python float always succeeds; the value is
modelled by its IEEE-754 byte rendering). -/
def write_float (key : PyKey) (bits : List Nat) (st : Stream) : Except PyErr Stream :=
  .ok ((write_raw_key key (st.write [0x01])).write bits)

/-- `BSONEncoder.write_bool`: tag `0x08`, key, `0x01`/`0x00` payload. -/
def write_bool (key : PyKey) (b : Bool) (st : Stream) : Except PyErr Stream :=
  .ok ((write_raw_key key (st.write [0x08])).write (if b then [1] else [0]))

/-- `BSONEncoder.write_null`: tag `0x0A`, key, no payload. -/
def write_null (key : PyKey) (st : Stream) : Except PyErr Stream :=
  .ok (write_raw_key key (st.write [0x0A]))

/-- `BSONEncoder.write_min_key` (not reachable from `write_value`). -/
def write_min_key (key : PyKey) (st : Stream) : Stream :=
  write_raw_key key (st.write [0xFF])

/-- `BSONEncoder.write_max_key` (not reachable from `write_value`). -/
def write_max_key (key : PyKey) (st : Stream) : Stream :=
  write_raw_key key (st.write [0x7F])

/-- `BSONEncoder.write_datetime`: tag `0x09`, key, packed
`int(1000 * dt.timestamp())`; the datetime is modelled by that integer. -/
def write_datetime (key : PyKey) (ms : Int) (st : Stream) : Except PyErr Stream :=
  let st2 := write_raw_key key (st.write [0x09])
  eBind (packInt64 ms) (fun bs => .ok (st2.write bs))

/-- `BSONEncoder.write_string`: tag `0x02`, key, int32 length including
the terminator, UTF-8 bytes, terminator. -/
def write_string (key : PyKey) (s : List Nat) (st : Stream) : Except PyErr Stream :=
  let st2 := write_raw_key key (st.write [0x02])
  eBind (packInt32 ((s.length : Int) + 1))
    (fun bs => .ok (((st2.write bs).write s).write [0]))

/-- `BSONEncoder.write_uuid`: after the tag, key and packed length the
source executes `stm.write(len(data))` — writing an `int` to a binary
stream, which raises `TypeError`; the subtype byte and payload lines are
unreachable. -/
def write_uuid (key : PyKey) (bytes16 : List Nat) (st : Stream) : Except PyErr Stream :=
  let st2 := write_raw_key key (st.write [0x05])
  eBind (packInt32 (bytes16.length : Int))
    (fun bs =>
      let _st3 := st2.write bs
      .error .typeError)

/-- `BSONEncoder.write_bytes`: tag `0x05`, key, int32 length, generic
subtype `0x00`, raw bytes.  NOTE: `write_value` never calls this method
(it calls a nonexistent `write_binary` instead). -/
def write_bytes (key : PyKey) (b : List Nat) (st : Stream) : Except PyErr Stream :=
  let st2 := write_raw_key key (st.write [0x05])
  eBind (packInt32 (b.length : Int))
    (fun bs => .ok (((st2.write bs).write [0]).write b))

/-- `BSONEncoder.write_value` (encoder.py lines 245-272): runtime-type
dispatch for scalar values.  The source checks, in order: `None`, `bool`
(explicitly *before* `int`, since Python booleans satisfy
`isinstance(v, int)`), `int` (choosing 32- vs 64-bit by the
`_INT32_LOWERBOUND`/`_INT32_UPPERBOUND` window), `float`/`Decimal`,
`datetime`, `str`, `UUID`, bytes-like.  The bytes-like branch calls
`self.write_binary`, a method that does not exist on `BSONEncoder`, so
it raises `AttributeError`.  Unclassifiable values raise
`BSONEncodeError(key, msg)` (a well-formed two-argument construction). -/
def write_value (key : PyKey) (v : PyValue) (st : Stream) : Except PyErr Stream :=
  match v with
  | .none => write_null key st
  | _ =>
    if isinstance_bool v then
      write_bool key (asBool v) st
    else if isinstance_int v then
      if asInt v < INT32_LOWERBOUND ∨ asInt v > INT32_UPPERBOUND then
        write_int64 key (asInt v) st
      else
        write_int32 key (asInt v) st
    else match v with
    | .float bits => write_float key bits st
    | .datetime ms => write_datetime key ms st
    | .str s => write_string key s st
    | .uuid u => write_uuid key u st
    | .bytes _ => .error .attributeError
    | _ => .error (.bsonEncodeError (fmtKey key))

/-- The `try`/`finally` tail of `_write_length_for_frame`: write the
packed length over the placeholder (when packing succeeded) and in every
case seek back to the remembered cursor, reporting the exception, if
any, alongside the mutated stream. -/
def backpatch (packed : Except PyErr (List Nat)) (st2 : Stream) (currPos : Nat) :
    Stream × Option PyErr :=
  match packed with
  | .ok bs => ((st2.write bs).seekAbs currPos, Option.none)
  | .error e => (st2.seekAbs currPos, some e)

/-- `_write_length_for_frame` (encoder.py lines 95-107): append the
frame's terminating zero byte, remember the cursor, seek back to the
frame's starting position, overwrite the 4-byte placeholder with the
packed length and — in a `finally` block, hence also when packing
raises — seek back to the remembered cursor.  Returns the mutated stream
together with the exception, if any. -/
def write_length_for_frame (startingFpos : Nat) (st : Stream) : Stream × Option PyErr :=
  let st1 := st.write [0]
  let currPos := st1.tell
  let length : Int := (currPos : Int) - (startingFpos : Int)
  let st2 := st1.seekAbs startingFpos
  backpatch (packInt32 length) st2 currPos

/-- `frame.key.replace('.', '\\.')` used by
`BSONEncodeError.update_with_stack`. -/
def escapeDots (s : List Nat) : List Nat :=
  s.flatMap (fun c => if c = 46 then [92, 46] else [c])

/-- `str.replace` is looked up on each stack frame's key by
`update_with_stack`; non-`str` keys (array indices are `int`) have no
such attribute, raising `AttributeError` (`bytes.replace` exists but
rejects `str` arguments with `TypeError`). -/
def escapeKeyE : PyKey → Except PyErr (List Nat)
  | .str s => .ok (escapeDots s)
  | .int _ => .error .attributeError
  | .bytes _ => .error .typeError

/-- The exception handler in `BSONEncoder.dump`'s element loop
(encoder.py lines 163-174): a `BSONEncodeError` gets its key prefixed
with the dotted path of the open frames' keys
(`update_with_stack`); any other exception is wrapped in
`BSONEncodeError(key, str(exc))` and then annotated the same way. -/
def annotate (stack : List PyKey) (key : PyKey) (e : PyErr) : PyErr :=
  let baseKey := match e with
    | .bsonEncodeError k => k
    | _ => fmtKey key
  match stack.mapM escapeKeyE with
  | .error e2 => e2
  | .ok parts => .bsonEncodeError (List.intercalate [46] parts ++ [46] ++ baseKey)

/-- Exception annotation around one `write_value` call, as performed by
the `except` clauses of `dump`'s element loop. -/
def annotated (stack : List PyKey) (key : PyKey) (x : Except PyErr Stream) :
    Except PyErr Stream :=
  match x with
  | .ok st => .ok st
  | .error e => .error (annotate stack key e)

/-- Closing a frame: the `(stream, exception)` outcome of
`_write_length_for_frame` re-raised into the control flow (exceptions
raised inside the generator are *not* annotated by the loop handler). -/
def closeFrame (p : Stream × Option PyErr) : Except PyErr Stream :=
  match p with
  | (st, Option.none) => .ok st
  | (_, some e) => .error e

mutual

/-- One iteration of the element loop in `BSONEncoder.dump`
(encoder.py lines 146-174): a `dict` value opens a nested document
frame (`write_document`: tag `0x03`, key, record the cursor, 4-byte zero
placeholder), a `list`/`tuple` value opens a nested array frame
(`write_array`: tag `0x04`, likewise), anything else goes through
`write_value` with exceptions annotated with the current frame stack.
The explicit `deque` of `_encode_generator` is rendered as this
recursion (the deque is exactly the recursion stack), and closing a
frame runs `_write_length_for_frame`, whose exceptions propagate out of
the generator unannotated. -/
def encodeElem (stack : List PyKey) (key : PyKey) (v : PyValue) (st : Stream) :
    Except PyErr Stream :=
  match v with
  | .doc items =>
    let st2 := write_raw_key key (st.write [0x03])
    let start := st2.tell
    let st3 := st2.write (le4 0)
    eBind (encodeElems (stack ++ [key]) items st3)
      (fun st4 => closeFrame (write_length_for_frame start st4))
  | .arr elems =>
    let st2 := write_raw_key key (st.write [0x04])
    let start := st2.tell
    let st3 := st2.write (le4 0)
    eBind (encodeArrElems (stack ++ [key]) 0 elems st3)
      (fun st4 => closeFrame (write_length_for_frame start st4))
  | _ => annotated stack key (write_value key v st)

/-- The items of one document frame, in insertion order
(`iter(obj.items())`). -/
def encodeElems (stack : List PyKey) (items : List (PyKey × PyValue)) (st : Stream) :
    Except PyErr Stream :=
  match items with
  | [] => .ok st
  | (k, v) :: rest =>
    eBind (encodeElem stack k v st) (fun st1 => encodeElems stack rest st1)

/-- The items of one array frame: `iter(enumerate(val))` supplies the
running index as the key. -/
def encodeArrElems (stack : List PyKey) (i : Nat) (elems : List PyValue) (st : Stream) :
    Except PyErr Stream :=
  match elems with
  | [] => .ok st
  | v :: rest =>
    eBind (encodeElem stack (.int (i : Int)) v st)
      (fun st1 => encodeArrElems stack (i + 1) rest st1)

end

/-- Python argument binding for
`BSONEncodeError.__init__(self, key, msg, *args, fpos=None)`: fewer than
two positional arguments raise `TypeError` before any exception object
exists.  On success the error records its `key`. -/
def bson_encode_error_new (args : List (List Nat)) : Except PyErr PyErr :=
  match args with
  | key :: _msg :: _ => .ok (.bsonEncodeError key)
  | _ => .error .typeError

/-- The message string `'Root object must be a dict!'` (as UTF-8 bytes
it is only a placeholder: the constructor misbinds it as the `key`). -/
def rootMustBeDictMsg : List Nat :=
  [82, 111, 111, 116]

/-- `BSONEncoder.dump` (encoder.py lines 119-144): a non-`Mapping` root
executes `raise errors.BSONEncodeError('Root object must be a dict!')` —
a *single* positional argument, so the constructor itself raises
`TypeError`.  Otherwise: record the cursor, create the root frame (key
`''`), write the zero placeholder, drive the element loop, and close the
root frame via `_write_length_for_frame`. -/
def dump (obj : PyValue) (st : Stream) : Except PyErr Stream :=
  match obj with
  | .doc items =>
    let start := st.tell
    let st1 := st.write (le4 0)
    eBind (encodeElems [.str []] items st1)
      (fun st2 => closeFrame (write_length_for_frame start st2))
  | _ =>
    eBind (bson_encode_error_new [rootMustBeDictMsg]) (fun e => .error e)

/-- `BSONEncoder.dumps`: serialize into a fresh `BytesIO` and return its
contents. -/
def dumps (obj : PyValue) : Except PyErr (List Nat) :=
  eBind (dump obj ⟨[], 0⟩) (fun st => .ok st.data)

/-! ## `decoder.py`: parse primitives -/

/-- Values produced by the decode callbacks.  A decoded `str` is its
UTF-8 bytes, a float its IEEE-754 byte rendering, a datetime the
millisecond count `parse_utc_datetime` read (it calls
`datetime.fromtimestamp(utc_ms / 1000.0)`). -/
inductive DValue where
  | none
  | undefined
  | bool (b : Bool)
  | int (n : Int)
  | float (bits : List Nat)
  | datetime (ms : Int)
  | str (s : List Nat)
  | bytes (b : List Nat)
  | uuid (b : List Nat)
deriving Repr, DecidableEq

/-- A decoded element key: `parse_ename` returns a `str` on successful
UTF-8 decoding and the raw `bytearray` otherwise. -/
inductive DKey where
  | str (s : List Nat)
  | bytes (b : List Nat)
deriving Repr, DecidableEq

/-- `parse_int32` (decoder.py): read 4 bytes, unpack little-endian
signed; a short read makes `unpack` raise `struct.error`. -/
def parse_int32 (st : Stream) : Except PyErr (Int × Stream) :=
  let (buff, st1) := st.read 4
  eBind (unpackInt32 buff) (fun v => .ok (v, st1))

/-- `parse_int64`. -/
def parse_int64 (st : Stream) : Except PyErr (Int × Stream) :=
  let (buff, st1) := st.read 8
  eBind (unpackInt64 buff) (fun v => .ok (v, st1))

/-- `parse_uint64`. -/
def parse_uint64 (st : Stream) : Except PyErr (Int × Stream) :=
  let (buff, st1) := st.read 8
  eBind (unpackUint64 buff) (fun v => .ok (v, st1))

/-- `parse_byte`. -/
def parse_byte (st : Stream) : Except PyErr (Nat × Stream) :=
  let (buff, st1) := st.read 1
  eBind (unpackByte buff) (fun v => .ok (v, st1))

/-- `parse_64bit_float`: read 8 bytes (`DOUBLE_STRUCT.unpack`); the
resulting Python float is modelled by those bytes. -/
def parse_64bit_float (st : Stream) : Except PyErr (DValue × Stream) :=
  let (buff, st1) := st.read 8
  if buff.length = 8 then .ok (.float buff, st1) else .error .structError

/-- `_scan_for_null_terminator`: index of the first zero byte (the
source returns `-1` when absent, rendered here as `none`). -/
def scan_for_null_terminator (buff : List Nat) : Option Nat :=
  match buff with
  | [] => Option.none
  | b :: rest =>
    if b = 0 then some 0 else (scan_for_null_terminator rest).map (· + 1)

/-- UTF-8 validity as enforced by Python's strict `bytes.decode('utf-8')`:
continuation bytes in `0x80-0xBF`, no overlong forms, no surrogates,
nothing above `U+10FFFF`. -/
def utf8Valid : List Nat → Bool
  | [] => true
  | b :: rest =>
    if b ≤ 127 then utf8Valid rest
    else if 194 ≤ b ∧ b ≤ 223 then
      match rest with
      | c1 :: r => (128 ≤ c1 && c1 ≤ 191) && utf8Valid r
      | [] => false
    else if b = 224 then
      match rest with
      | c1 :: c2 :: r => (160 ≤ c1 && c1 ≤ 191) && (128 ≤ c2 && c2 ≤ 191) && utf8Valid r
      | _ => false
    else if (225 ≤ b ∧ b ≤ 236) ∨ b = 238 ∨ b = 239 then
      match rest with
      | c1 :: c2 :: r => (128 ≤ c1 && c1 ≤ 191) && (128 ≤ c2 && c2 ≤ 191) && utf8Valid r
      | _ => false
    else if b = 237 then
      match rest with
      | c1 :: c2 :: r => (128 ≤ c1 && c1 ≤ 159) && (128 ≤ c2 && c2 ≤ 191) && utf8Valid r
      | _ => false
    else if b = 240 then
      match rest with
      | c1 :: c2 :: c3 :: r =>
        (144 ≤ c1 && c1 ≤ 191) && (128 ≤ c2 && c2 ≤ 191) && (128 ≤ c3 && c3 ≤ 191)
          && utf8Valid r
      | _ => false
    else if 241 ≤ b ∧ b ≤ 243 then
      match rest with
      | c1 :: c2 :: c3 :: r =>
        (128 ≤ c1 && c1 ≤ 191) && (128 ≤ c2 && c2 ≤ 191) && (128 ≤ c3 && c3 ≤ 191)
          && utf8Valid r
      | _ => false
    else if b = 244 then
      match rest with
      | c1 :: c2 :: c3 :: r =>
        (128 ≤ c1 && c1 ≤ 143) && (128 ≤ c2 && c2 ≤ 191) && (128 ≤ c3 && c3 ≤ 191)
          && utf8Valid r
      | _ => false
    else false

/-- The chunked scanning loop of `parse_ename` (decoder.py lines
123-140): read (up to) 1024 bytes, scan the chunk for a zero byte; if
none is found accumulate the chunk and read again (at end of stream
with no terminator the Python loop spins forever — marked
`nonTermination`); once found, keep the bytes up to and including the
terminator and seek back over the over-read.  The `while True` loop is
rendered with a fuel parameter (exhaustion likewise marked
`nonTermination`); `parse_ename` supplies more fuel than any input can
consume, since every iteration either finishes, errors, or advances the
cursor by 1024. -/
def parse_ename_loop (fuel : Nat) (st : Stream) (acc : List Nat) :
    Except PyErr (List Nat × Stream) :=
  match fuel with
  | 0 => .error .nonTermination
  | fuel' + 1 =>
    let peeked := (st.read 1024).1
    let st1 := (st.read 1024).2
    match scan_for_null_terminator peeked with
    | Option.none =>
      if peeked.length = 0 then .error .nonTermination
      else parse_ename_loop fuel' st1 (acc ++ peeked)
    | some index =>
      let data := acc ++ peeked.take (index + 1)
      let target : Int := (st1.pos : Int) + ((index : Int) - (peeked.length : Int) + 1)
      .ok (data, st1.seekAbs target.toNat)

/-- `parse_ename` (decoder.py lines 115-156): scan a C-string; assert
the accumulated buffer ends with the terminator, drop it, and — when
`decode` is requested — *try* UTF-8 decoding, silently falling back to
the raw bytes on failure (`except Exception: pass`). -/
def parse_ename_finish (decode : Bool) (p : List Nat × Stream) :
    Except PyErr (DKey × Stream) :=
  match p with
  | (data, st1) =>
    match data.getLast? with
    | Option.none => .error .indexError
    | some b =>
      if b = 0 then
        let body := data.dropLast
        if decode then
          if utf8Valid body then .ok (.str body, st1) else .ok (.bytes body, st1)
        else .ok (.bytes body, st1)
      else .error .assertionError

def parse_ename (st : Stream) (decode : Bool := true) : Except PyErr (DKey × Stream) :=
  eBind (parse_ename_loop (st.data.length + 1) st []) (parse_ename_finish decode)

/-- `parse_utf8_string`: read an int32 length, then that many bytes; the
final byte must be the terminator (`assert`), and the preceding bytes
must decode as UTF-8 (no fallback here: failure raises
`UnicodeDecodeError`). -/
def parse_utf8_string (st : Stream) : Except PyErr (DValue × Stream) :=
  match parse_int32 st with
  | .error e => .error e
  | .ok (length, st1) =>
    let (data, st2) := st1.read length.toNat
    if length ≤ 0 then .error .indexError
    else if h : length.toNat - 1 < data.length then
      if data.get ⟨length.toNat - 1, h⟩ = 0 then
        let body := data.dropLast
        if utf8Valid body then .ok (.str body, st2) else .error .unicodeDecodeError
      else .error .assertionError
    else .error .indexError

/-- `parse_bool`: one byte, `0x00` or `0x01`; anything else raises a
plain `Exception`. -/
def parse_bool (st : Stream) : Except PyErr (DValue × Stream) :=
  let (buff, st1) := st.read 1
  match buff with
  | [] => .error .indexError
  | b :: _ =>
    if b = 0 then .ok (.bool false, st1)
    else if b = 1 then .ok (.bool true, st1)
    else .error .genericException

/-- `parse_binary`: int32 length, one subtype byte, then the payload;
subtypes `0x03`/`0x04` are turned into a UUID (`uuid.UUID(bytes=data)`
insists on exactly 16 bytes). -/
def parse_binary (st : Stream) : Except PyErr (DValue × Stream) :=
  match parse_int32 st with
  | .error e => .error e
  | .ok (length, st1) =>
    match parse_byte st1 with
    | .error e => .error e
    | .ok (subtype, st2) =>
      let (data, st3) := st2.read length.toNat
      if subtype = 3 ∨ subtype = 4 then
        if data.length = 16 then .ok (.uuid data, st3) else .error .valueError
      else .ok (.bytes data, st3)

/-- `parse_utc_datetime`: read an int64 millisecond count; the resulting
`datetime.fromtimestamp(utc_ms / 1000.0)` is modelled by that count. -/
def parse_utc_datetime (st : Stream) : Except PyErr (DValue × Stream) :=
  match parse_int64 st with
  | .error e => .error e
  | .ok (ms, st1) => .ok (.datetime ms, st1)

/-- `parse_datetime` simply delegates to `parse_utc_datetime` (this is
what the scanner maps opcode `0x11` to — it reads a *signed* int64, not
the uint64 the format prescribes). -/
def parse_datetime (st : Stream) : Except PyErr (DValue × Stream) :=
  parse_utc_datetime st

/-- `parse_null` returns the literal pair `(None, 0)` in the source —
kept verbatim; it is only referenced by the unused module-level
`ELEMENT_OPCODES` table, never by `BSONScanner`. -/
def parse_null (_st : Stream) : DValue × Nat :=
  (.none, 0)

/-! ## `codec_util.DocumentFrame` and the decode engine -/

/-- A dynamically typed Python value, for `DocumentFrame` fields that the
decoder binds to arguments of the wrong type (see `document_frame_call`). -/
inductive PObj where
  | none
  | int (n : Int)
  | bool (b : Bool)
  | frameRef (idx : Nat)
deriving Repr, DecidableEq

/-- The contents `BSONDecoder.load` accumulates in a frame's `ext_data`:
a dict (insertion-ordered key/value pairs) or a list. -/
inductive ExtData where
  | dict (kvs : List (DKey × DValue))
  | list (elems : List DValue)
deriving Repr, DecidableEq

/-- `codec_util.DocumentFrame`: signature
`__init__(self, key, fpos, parent=None, length=None, is_array=False,
ext_data=None)`; it also sets `offset = fpos`. -/
structure DocumentFrame where
  key : DKey
  fpos : Nat
  offset : Nat
  parent : PObj
  length : PObj
  is_array : PObj
  ext_data : Option ExtData
deriving Repr, DecidableEq

/-- Python argument binding for the two `util.DocumentFrame(...)` call
sites in `BSONScanner.iterdecode`: four positional arguments (binding
`key`, `fpos`, `parent`, `length` in that order) plus an optional
`parent=` keyword.  Supplying `parent` both positionally (the third
argument — which at those call sites is the parsed *length*) and by
keyword raises `TypeError: got multiple values for argument 'parent'`. -/
def document_frame_call (a1 : DKey) (a2 : Nat) (a3 : PObj) (a4 : PObj)
    (parentKw : Option PObj) : Except PyErr DocumentFrame :=
  match parentKw with
  | some _ => .error .typeError
  | Option.none =>
    .ok { key := a1, fpos := a2, offset := a2, parent := a3, length := a4,
          is_array := .bool false, ext_data := Option.none }

/-- The decode callbacks that can appear in `BSONScanner._opcode_mapping`
(defunctionalized: the mapping stores Python functions, including the
constructor's closures over the min/max/null objects; `custom i` stands
for a consumer-registered callback). -/
inductive Handler where
  | parse64bitFloatH
  | parseUtf8StringH
  | scanBinaryH
  | scanUndefinedH
  | parseBoolH
  | parseUtcDatetimeH
  | nullObjectH
  | parseInt32H
  | parseDatetimeH
  | parseInt64H
  | maxObjectH
  | minObjectH
  | custom (i : Nat)
deriving Repr, DecidableEq

/-- `BSONScanner` state: the constructor arguments and the opcode
mapping. -/
structure Scanner where
  min_key_object : DValue
  max_key_object : DValue
  null_object : DValue
  opcodeMapping : Nat → Option Handler

/-- `BSONScanner.__init__` (decoder.py lines 263-294): the default
opcode mapping.  NOTE: the entry for `0x06` refers to
`self.scan_undefined`, a method absent from the class in src/. -/
def bson_scanner_init (minKey maxKey nullObj : DValue) : Scanner :=
  { min_key_object := minKey, max_key_object := maxKey, null_object := nullObj,
    opcodeMapping := fun o =>
      match o with
      | 0x01 => some .parse64bitFloatH
      | 0x02 => some .parseUtf8StringH
      | 0x05 => some .scanBinaryH
      | 0x06 => some .scanUndefinedH
      | 0x08 => some .parseBoolH
      | 0x09 => some .parseUtcDatetimeH
      | 0x0A => some .nullObjectH
      | 0x10 => some .parseInt32H
      | 0x11 => some .parseDatetimeH
      | 0x12 => some .parseInt64H
      | 0x7F => some .maxObjectH
      | 0xFF => some .minObjectH
      | _ => Option.none }

/-- `BSONDecoder()` with default constructor arguments (`None` for the
min-key, max-key and null objects). -/
def bson_decoder_default : Scanner :=
  bson_scanner_init .none .none .none

/-- `BSONScanner.register_opcode`: `self._opcode_mapping[opcode] =
callback` — a plain dict assignment, for any opcode. -/
def register_opcode (sc : Scanner) (opcode : Nat) (callback : Handler) : Scanner :=
  { sc with opcodeMapping := fun o =>
      if o = opcode then some callback else sc.opcodeMapping o }

/-- `BSONScanner.scan_binary` delegates to `parse_binary`. -/
def scan_binary (st : Stream) : Except PyErr (DValue × Stream) :=
  parse_binary st

/-- Modelled from the spec: `BSONScanner.scan_undefined` is referenced by
the constructor's opcode mapping (tag `0x06`) but is missing from the
class in src/; per the opcode table in §4.2 the `undefined` tag has no
payload, so the callback consumes no bytes and yields the deprecated
`undefined` placeholder value. -/
def scan_undefined (st : Stream) : Except PyErr (DValue × Stream) :=
  .ok (.undefined, st)

/-- Run one decode callback against the stream. -/
def runHandler (sc : Scanner) (h : Handler) (st : Stream) :
    Except PyErr (DValue × Stream) :=
  match h with
  | .parse64bitFloatH => parse_64bit_float st
  | .parseUtf8StringH => parse_utf8_string st
  | .scanBinaryH => scan_binary st
  | .scanUndefinedH => scan_undefined st
  | .parseBoolH => parse_bool st
  | .parseUtcDatetimeH => parse_utc_datetime st
  | .nullObjectH => .ok (sc.null_object, st)
  | .parseInt32H =>
    match parse_int32 st with
    | .ok (v, st1) => .ok (.int v, st1)
    | .error e => .error e
  | .parseDatetimeH => parse_datetime st
  | .parseInt64H =>
    match parse_int64 st with
    | .ok (v, st1) => .ok (.int v, st1)
    | .error e => .error e
  | .maxObjectH => .ok (sc.max_key_object, st)
  | .minObjectH => .ok (sc.min_key_object, st)
  | .custom _ => .ok (.undefined, st)

/-- `BSONScanner.process_opcode`: look the opcode up in the mapping; a
missing entry raises a plain `Exception('Invalid opcode: ...')`. -/
def process_opcode (sc : Scanner) (opcode : Nat) (st : Stream) :
    Except PyErr (DValue × Stream) :=
  match sc.opcodeMapping opcode with
  | Option.none => .error .genericException
  | some h => runHandler sc h st

/-- The events `iterdecode` yields (third component of its tuples):
`DecodeEvents.NESTED_DOCUMENT` / `NESTED_ARRAY` / `END_DOCUMENT`, or a
parsed scalar value. -/
inductive EvKind where
  | nestedDocument
  | nestedArray
  | endDocument
  | value (v : DValue)
deriving Repr, DecidableEq

/-- One yielded tuple `(frame, key, value)`: the frame is an index into
the arena (Python yields the object itself; the consumer mutates it). -/
structure Event where
  frameIdx : Nat
  key : DKey
  kind : EvKind
deriving Repr, DecidableEq

/-- The consumer directive `DecodeEvents.SKIP_KEY` sent back into the
generator. -/
inductive Directive where
  | skipKey
deriving Repr, DecidableEq

/-- The suspended state of `iterdecode` between yields.  `arena` holds
every `DocumentFrame` ever constructed (Python heap objects; events and
the stack refer to them by index, and the consumer can mutate them).
`pending` records a nested-document/array element whose start event has
been yielded but whose fate (skip vs. push) awaits the consumer's
response. -/
structure IterState where
  stm : Stream
  arena : List DocumentFrame
  stack : List Nat
  pending : Option (DKey × Nat × Int × Bool × Nat)
deriving Repr, DecidableEq

/-- `BSONScanner.iterdecode` up to its first `yield` (decoder.py lines
329-343): record the position, parse the root length, build the root
frame — note the call `util.DocumentFrame('', fpos, length, False)`
binds `length` to the *parent* parameter and `False` to the *length*
parameter — push it, and yield the initial nested-document event. -/
def iterdecode_init (st : Stream) : Except PyErr (Event × IterState) :=
  let fpos := st.tell
  match parse_int32 st with
  | .error e => .error e
  | .ok (length, st1) =>
    match document_frame_call (.str []) fpos (.int length) (.bool false) Option.none with
    | .error e => .error e
    | .ok curr_frame =>
      .ok (⟨0, .str [], .nestedDocument⟩,
           { stm := st1, arena := [curr_frame], stack := [0], pending := Option.none })

/-- Resolution of a pending nested-document/array start once the
consumer's response arrives (decoder.py lines 381-391): `SKIP_KEY` makes
the engine `stm.seek(length, 1)` — a relative seek by the parsed length
from the position *after* the length field; any other response
constructs a new `DocumentFrame` with
`util.DocumentFrame(key, nested_fpos, length, is_array, parent=frame)` —
four positional arguments *and* a `parent` keyword, so the constructor
raises `TypeError` — and pushes it. -/
def resolve_pending (s : IterState) (req : Option Directive) :
    Except PyErr IterState :=
  match s.pending with
  | Option.none => .ok s
  | some (key, nested_fpos, length, is_array, parentIdx) =>
    match req with
    | some .skipKey =>
      let target : Int := (s.stm.pos : Int) + length
      if target < 0 then .error .valueError
      else .ok { s with stm := s.stm.seekAbs target.toNat, pending := Option.none }
    | Option.none =>
      match document_frame_call key nested_fpos (.int length) (.bool is_array)
          (some (.frameRef parentIdx)) with
      | .error e => .error e
      | .ok new_frame =>
        .ok { s with arena := s.arena ++ [new_frame],
                     stack := s.arena.length :: s.stack,
                     pending := Option.none }

/-- The body of `iterdecode`'s `while current_stack` loop (decoder.py
lines 345-402), producing the next event: read a tag byte (`0x00` pops
the frame and yields `END_DOCUMENT`), parse the element key, then either
stage a nested frame (tags `0x03`/`0x04`: remember the position, parse
the length, yield the start event and leave the rest to
`resolve_pending`) or dispatch through `process_opcode` and yield the
value.  Returns `none` when the stack is empty (generator exhausted). -/
def iterdecode_step (sc : Scanner) (s : IterState) :
    Except PyErr (Option (Event × IterState)) :=
  match s.stack with
  | [] => .ok Option.none
  | frameIdx :: restStack =>
    match parse_byte s.stm with
    | .error e => .error e
    | .ok (opcode, st1) =>
      if opcode = 0 then
        match s.arena.get? frameIdx with
        | Option.none => .error .indexError
        | some fr =>
          .ok (some (⟨frameIdx, fr.key, .endDocument⟩,
                     { s with stm := st1, stack := restStack }))
      else
        match parse_ename st1 with
        | .error e => .error e
        | .ok (key, st2) =>
          if opcode = 3 ∨ opcode = 4 then
            let nested_fpos := st2.tell
            match parse_int32 st2 with
            | .error e => .error e
            | .ok (length, st3) =>
              let is_array := opcode = 4
              .ok (some (⟨frameIdx, key,
                          if is_array then .nestedArray else .nestedDocument⟩,
                         { s with stm := st3,
                                  pending := some (key, nested_fpos, length,
                                                   is_array, frameIdx) }))
          else
            match process_opcode sc opcode st2 with
            | .error e => .error e
            | .ok (v, st3) =>
              .ok (some (⟨frameIdx, key, .value v⟩,
                         { s with stm := st3, pending := Option.none }))

/-- `iterdecode` as a `send`-driven generator: resolve the previous
nested-start (using the consumer's directive), then run the loop body to
the next yield. -/
def iterdecode_next (sc : Scanner) (s : IterState) (req : Option Directive) :
    Except PyErr (Option (Event × IterState)) :=
  match resolve_pending s req with
  | .error e => .error e
  | .ok s1 => iterdecode_step sc s1

/-- Modelled from the spec: `BSONDecoder.load` calls `self.decode(stm)`,
a method absent from src/ (only this caller is present); per §2/§4.3 the
materializing adapter is built directly on the decode engine's event
sequence, which src/ implements as `BSONScanner.iterdecode` — so
`decode` is modelled as that same generator. -/
def decode_init (st : Stream) : Except PyErr (Event × IterState) :=
  iterdecode_init st

/-- Modelled from the spec: the step function of `BSONDecoder.decode`
(see `decode_init`). -/
def decode_next (sc : Scanner) (s : IterState) (req : Option Directive) :
    Except PyErr (Option (Event × IterState)) :=
  iterdecode_next sc s req

/-! ## `BSONDecoder.load` / `loads` -/

/-- Replace the `i`-th element of a list (used for consumer-side
mutation of arena frames). -/
def listModify (l : List α) (i : Nat) (f : α → α) : List α :=
  match l, i with
  | [], _ => []
  | x :: xs, 0 => f x :: xs
  | x :: xs, n + 1 => x :: listModify xs n f

/-- Python dict assignment `d[key] = val`: overwrite in place, append if
absent (insertion order preserved, last write wins). -/
def assocSet (kvs : List (DKey × DValue)) (k : DKey) (v : DValue) :
    List (DKey × DValue) :=
  match kvs with
  | [] => [(k, v)]
  | (k0, v0) :: rest =>
    if k0 = k then (k0, v) :: rest else (k0, v0) :: assocSet rest k v

/-- `frame.ext_data[key] = val` in `load`'s else-branch: subscript
assignment on `None` (frame never initialized) or on a `list` (string
key) raises `TypeError`; on a dict it stores the pair. -/
def extAssign (e : Option ExtData) (k : DKey) (v : DValue) : Except PyErr ExtData :=
  match e with
  | Option.none => .error .typeError
  | some (.dict kvs) => .ok (.dict (assocSet kvs k v))
  | some (.list _) => .error .typeError

/-- The body of `load`'s `for frame, key, val in generator` loop
(decoder.py lines 437-445): a `NESTED_DOCUMENT` event sets the *yielded*
frame's `ext_data` to a fresh dict, `NESTED_ARRAY` to a fresh list,
`END_DOCUMENT` is skipped, and any other value is stored under its key
in the yielded frame's `ext_data`. -/
def load_process_event (s : IterState) (ev : Event) : Except PyErr IterState :=
  match ev.kind with
  | .nestedDocument =>
    .ok { s with arena := listModify s.arena ev.frameIdx
                   (fun fr => { fr with ext_data := some (.dict []) }) }
  | .nestedArray =>
    .ok { s with arena := listModify s.arena ev.frameIdx
                   (fun fr => { fr with ext_data := some (.list []) }) }
  | .endDocument => .ok s
  | .value v =>
    match s.arena.get? ev.frameIdx with
    | Option.none => .error .indexError
    | some fr =>
      match extAssign fr.ext_data ev.key v with
      | .error e => .error e
      | .ok newExt =>
        .ok { s with arena := listModify s.arena ev.frameIdx
                       (fun fr2 => { fr2 with ext_data := some newExt }) }

/-- The rest of `load`'s loop after the first event, driven by
`decode_next` with no directive (a bare `for` never sends anything).
Every successful step consumes at least one stream byte, so the fuel
passed by `load` can never run out; exhaustion is flagged
`nonTermination` for totality. -/
def load_loop (sc : Scanner) (fuel : Nat) (s : IterState) (lastIdx : Nat) :
    Except PyErr (List DocumentFrame × Nat) :=
  match fuel with
  | 0 => .error .nonTermination
  | fuel' + 1 =>
    match decode_next sc s Option.none with
    | .error e => .error e
    | .ok Option.none => .ok (s.arena, lastIdx)
    | .ok (some (ev, s1)) =>
      match load_process_event s1 ev with
      | .error e => .error e
      | .ok s2 => load_loop sc fuel' s2 ev.frameIdx

/-- `BSONDecoder.load` (decoder.py lines 433-451): drive the decode
generator, materialize into `ext_data`, and finally return the last
yielded frame's `ext_data`.  (The guard `if not frame: raise
BSONDecodeError(...)` uses an unqualified name — a `NameError` if it
ever fired — but the generator always yields at least once when it does
not raise.) -/
def load (sc : Scanner) (st : Stream) : Except PyErr (Option ExtData) :=
  match decode_init st with
  | .error e => .error e
  | .ok (ev0, s0) =>
    match load_process_event s0 ev0 with
    | .error e => .error e
    | .ok s1 =>
      match load_loop sc (st.data.length + 1) s1 ev0.frameIdx with
      | .error e => .error e
      | .ok (arena, lastIdx) =>
        match arena.get? lastIdx with
        | Option.none => .error .indexError
        | some fr => .ok fr.ext_data

/-- `BSONDecoder.loads`: wrap the bytes in a `BytesIO` and `load`. -/
def loads (sc : Scanner) (data : List Nat) : Except PyErr (Option ExtData) :=
  load sc ⟨data, 0⟩

/-- The result of appending bytes at the end of a stream (cursor after
the appended bytes). -/
def Stream.appended (st : Stream) (xs : List Nat) : Stream :=
  ⟨st.data ++ xs, st.data.length + xs.length⟩

/-- The state `st'` extends `st` by appended bytes and its cursor sits at
the end of its buffer (the invariant every encoder write step preserves). -/
def AppendsOk (st st' : Stream) : Prop :=
  (∃ app, st'.data = st.data ++ app) ∧ st'.pos = st'.data.length

/-! ## Stream lemmas -/

theorem Stream.write_at_end (st : Stream) (bs : List Nat)
    (h : st.pos = st.data.length) :
    st.write bs = ⟨st.data ++ bs, st.data.length + bs.length⟩ := by
  obtain ⟨d, p⟩ := st
  simp only at h
  subst h
  simp [Stream.write]

theorem Stream.write_overwrite (pre mid post bs : List Nat)
    (hlen : bs.length = mid.length) :
    Stream.write ⟨pre ++ mid ++ post, pre.length⟩ bs
      = ⟨pre ++ bs ++ post, pre.length + bs.length⟩ := by
  have h1 : ((pre ++ mid) ++ post).take pre.length = pre := by
    rw [List.append_assoc]
    exact List.take_left pre (mid ++ post)
  have h2 : ((pre ++ mid) ++ post).drop (pre.length + bs.length) = post := by
    rw [hlen, ← List.length_append]
    exact List.drop_left (pre ++ mid) post
  have h3 : pre.length - ((pre ++ mid) ++ post).length = 0 := by
    simp [List.length_append]
  simp [Stream.write, h1, h2, h3]
  rw [hlen]
  exact List.drop_left mid post

theorem Stream.appended_pos_eq (st : Stream) (xs : List Nat) :
    (st.appended xs).pos = (st.appended xs).data.length := by
  simp [Stream.appended]

theorem Stream.appended_appended (st : Stream) (a b : List Nat) :
    (st.appended a).appended b = st.appended (a ++ b) := by
  simp [Stream.appended]
  omega

theorem Stream.write_at_end_eq (st : Stream) (bs : List Nat)
    (h : st.pos = st.data.length) : st.write bs = st.appended bs := by
  rw [Stream.write_at_end st bs h]
  rfl

theorem write_raw_key_at_end (key : PyKey) (st : Stream)
    (h : st.pos = st.data.length) :
    write_raw_key key st = st.appended (rawKeyBytes key) := by
  cases key <;>
    simp only [write_raw_key, rawKeyBytes] <;>
    rw [Stream.write_at_end_eq st _ h, Stream.write_at_end_eq _ _ (st.appended_pos_eq _),
        Stream.appended_appended]

theorem tag_key_at_end (tag : Nat) (key : PyKey) (st : Stream)
    (h : st.pos = st.data.length) :
    write_raw_key key (st.write [tag]) = st.appended ([tag] ++ rawKeyBytes key) := by
  rw [Stream.write_at_end_eq st _ h,
      write_raw_key_at_end key _ (st.appended_pos_eq _),
      Stream.appended_appended]

/-! ## Shape of each scalar writer when appending at the end -/

theorem eBind_ok (a : α) (f : α → Except PyErr β) : eBind (.ok a) f = f a := rfl

theorem eBind_error (e : PyErr) (f : α → Except PyErr β) :
    eBind (.error e) f = (.error e : Except PyErr β) := rfl

theorem write_int32_at_end (key : PyKey) (v : Int) (st : Stream)
    (h : st.pos = st.data.length) :
    write_int32 key v st = match packInt32 v with
      | .ok bs => .ok (st.appended ([0x10] ++ rawKeyBytes key ++ bs))
      | .error e => .error e := by
  simp only [write_int32, tag_key_at_end _ _ _ h]
  cases hp : packInt32 v with
  | ok bs =>
    simp only [hp, eBind_ok]
    rw [Stream.write_at_end_eq _ _ (st.appended_pos_eq _), Stream.appended_appended,
        List.append_assoc]
  | error e => simp [hp, eBind_error]

theorem write_int64_at_end (key : PyKey) (v : Int) (st : Stream)
    (h : st.pos = st.data.length) :
    write_int64 key v st = match packInt64 v with
      | .ok bs => .ok (st.appended ([0x12] ++ rawKeyBytes key ++ bs))
      | .error e => .error e := by
  simp only [write_int64, tag_key_at_end _ _ _ h]
  cases hp : packInt64 v with
  | ok bs =>
    simp only [hp, eBind_ok]
    rw [Stream.write_at_end_eq _ _ (st.appended_pos_eq _), Stream.appended_appended,
        List.append_assoc]
  | error e => simp [hp, eBind_error]

theorem write_datetime_at_end (key : PyKey) (ms : Int) (st : Stream)
    (h : st.pos = st.data.length) :
    write_datetime key ms st = match packInt64 ms with
      | .ok bs => .ok (st.appended ([0x09] ++ rawKeyBytes key ++ bs))
      | .error e => .error e := by
  simp only [write_datetime, tag_key_at_end _ _ _ h]
  cases hp : packInt64 ms with
  | ok bs =>
    simp only [hp, eBind_ok]
    rw [Stream.write_at_end_eq _ _ (st.appended_pos_eq _), Stream.appended_appended,
        List.append_assoc]
  | error e => simp [hp, eBind_error]

theorem write_float_at_end (key : PyKey) (bits : List Nat) (st : Stream)
    (h : st.pos = st.data.length) :
    write_float key bits st = .ok (st.appended ([0x01] ++ rawKeyBytes key ++ bits)) := by
  simp only [write_float, tag_key_at_end _ _ _ h]
  rw [Stream.write_at_end_eq _ _ (st.appended_pos_eq _), Stream.appended_appended,
      List.append_assoc]

theorem write_bool_at_end (key : PyKey) (b : Bool) (st : Stream)
    (h : st.pos = st.data.length) :
    write_bool key b st
      = .ok (st.appended ([0x08] ++ rawKeyBytes key ++ [if b then 1 else 0])) := by
  simp only [write_bool, tag_key_at_end _ _ _ h]
  cases b <;>
    rw [Stream.write_at_end_eq _ _ (st.appended_pos_eq _), Stream.appended_appended,
        List.append_assoc] <;> rfl

theorem write_null_at_end (key : PyKey) (st : Stream)
    (h : st.pos = st.data.length) :
    write_null key st = .ok (st.appended ([0x0A] ++ rawKeyBytes key)) := by
  simp only [write_null, tag_key_at_end _ _ _ h]

theorem write_string_at_end (key : PyKey) (s : List Nat) (st : Stream)
    (h : st.pos = st.data.length) :
    write_string key s st = match packInt32 ((s.length : Int) + 1) with
      | .ok bs => .ok (st.appended ([0x02] ++ rawKeyBytes key ++ bs ++ s ++ [0]))
      | .error e => .error e := by
  simp only [write_string, tag_key_at_end 0x02 key st h]
  cases hp : packInt32 ((s.length : Int) + 1) with
  | ok bs =>
    simp only [hp, eBind_ok]
    rw [Stream.write_at_end_eq _ _ (st.appended_pos_eq _), Stream.appended_appended,
        Stream.write_at_end_eq _ _ (st.appended_pos_eq _), Stream.appended_appended,
        Stream.write_at_end_eq _ _ (st.appended_pos_eq _), Stream.appended_appended]
  | error e => simp [hp, eBind_error]

theorem write_uuid_at_end (key : PyKey) (u : List Nat) (st : Stream) :
    write_uuid key u st = .error (match packInt32 (u.length : Int) with
      | .ok _ => PyErr.typeError
      | .error e => e) := by
  simp only [write_uuid]
  cases hp : packInt32 (u.length : Int) <;> simp [hp, eBind]

/-! ## Append-only behaviour of the encoder -/

theorem ok_appended_extends (st : Stream) (xs : List Nat) (st' : Stream)
    (h : (Except.ok (st.appended xs) : Except PyErr Stream) = .ok st') :
    (∃ app, st'.data = st.data ++ app) ∧ st'.pos = st'.data.length := by
  have h2 : st.appended xs = st' := by injection h
  cases h2
  exact ⟨⟨xs, rfl⟩, st.appended_pos_eq xs⟩

theorem write_value_appends (key : PyKey) (v : PyValue) (st st' : Stream)
    (h : st.pos = st.data.length) (hok : write_value key v st = .ok st') :
    (∃ app, st'.data = st.data ++ app) ∧ st'.pos = st'.data.length := by
  cases v with
  | none =>
    rw [write_value, write_null_at_end key st h] at hok
    exact ok_appended_extends st _ st' hok
  | bool b =>
    simp only [write_value, isinstance_bool, if_pos] at hok
    rw [write_bool_at_end key (asBool (.bool b)) st h] at hok
    exact ok_appended_extends st _ st' hok
  | int n =>
    simp only [write_value, isinstance_bool, isinstance_int, Bool.false_eq_true,
      if_false, if_true] at hok
    split at hok
    · rw [write_int64_at_end key _ st h] at hok
      cases hp : packInt64 (asInt (.int n)) with
      | ok bs =>
        rw [hp] at hok
        exact ok_appended_extends st _ st' hok
      | error e => rw [hp] at hok; cases hok
    · rw [write_int32_at_end key _ st h] at hok
      cases hp : packInt32 (asInt (.int n)) with
      | ok bs =>
        rw [hp] at hok
        exact ok_appended_extends st _ st' hok
      | error e => rw [hp] at hok; cases hok
  | float bits =>
    simp only [write_value, isinstance_bool, isinstance_int, Bool.false_eq_true,
      if_false] at hok
    rw [write_float_at_end key bits st h] at hok
    exact ok_appended_extends st _ st' hok
  | datetime ms =>
    simp only [write_value, isinstance_bool, isinstance_int, Bool.false_eq_true,
      if_false] at hok
    rw [write_datetime_at_end key ms st h] at hok
    cases hp : packInt64 ms with
    | ok bs =>
      rw [hp] at hok
      exact ok_appended_extends st _ st' hok
    | error e => rw [hp] at hok; cases hok
  | str s =>
    simp only [write_value, isinstance_bool, isinstance_int, Bool.false_eq_true,
      if_false] at hok
    rw [write_string_at_end key s st h] at hok
    cases hp : packInt32 ((s.length : Int) + 1) with
    | ok bs =>
      rw [hp] at hok
      exact ok_appended_extends st _ st' hok
    | error e => rw [hp] at hok; cases hok
  | uuid u =>
    rw [write_value] at hok
    simp only [isinstance_bool, isinstance_int, Bool.false_eq_true, if_false] at hok
    rw [write_uuid_at_end key u st] at hok
    cases hok
  | bytes b =>
    simp only [write_value, isinstance_bool, isinstance_int, Bool.false_eq_true,
      if_false] at hok
    cases hok
  | doc items =>
    simp only [write_value, isinstance_bool, isinstance_int, Bool.false_eq_true,
      if_false] at hok
    cases hok
  | arr elems =>
    simp only [write_value, isinstance_bool, isinstance_int, Bool.false_eq_true,
      if_false] at hok
    cases hok

theorem le4_length (n : Nat) : (le4 n).length = 4 := rfl

theorem write_length_for_frame_mid (P M body : List Nat) (hM : M.length = 4)
    (st : Stream)
    (hdata : st.data = P ++ M ++ body) (hpos : st.pos = st.data.length) :
    write_length_for_frame P.length st =
      if body.length + 5 ≤ 2147483647 then
        (⟨P ++ le4 (body.length + 5) ++ (body ++ [0]),
          P.length + 4 + body.length + 1⟩, Option.none)
      else (⟨st.data ++ [0], st.data.length + 1⟩, some .structError) := by
  have hlen : st.data.length = P.length + 4 + body.length := by
    rw [hdata]; simp [hM]; omega
  rw [write_length_for_frame, Stream.write_at_end_eq st [0] hpos]
  have harith : ((st.appended [0]).tell : Int) - (P.length : Int)
      = ((body.length : Int) + 5) := by
    simp [Stream.appended, Stream.tell, hlen]
    omega
  rw [harith]
  by_cases hc : body.length + 5 ≤ 2147483647
  · have hpack : packInt32 ((body.length : Int) + 5)
        = .ok (le4 (body.length + 5)) := by
      rw [packInt32, if_pos (by constructor <;> omega)]
      have hmod : ((body.length : Int) + 5) % 4294967296 = (body.length : Int) + 5 :=
        Int.emod_eq_of_lt (by omega) (by omega)
      rw [hmod]
      have htn : ((body.length : Int) + 5).toNat = body.length + 5 := by omega
      rw [htn]
    rw [hpack, backpatch]
    have hseek : (st.appended [0]).seekAbs P.length
        = ⟨P ++ M ++ (body ++ [0]), P.length⟩ := by
      simp [Stream.appended, Stream.seekAbs, hdata]
    rw [hseek, Stream.write_overwrite P M (body ++ [0]) (le4 (body.length + 5))
      (by simp [le4_length, hM])]
    rw [if_pos hc]
    simp [Stream.seekAbs, Stream.appended, Stream.tell, hlen, le4_length]
  · have hpack : packInt32 ((body.length : Int) + 5) = .error .structError := by
      rw [packInt32, if_neg]
      intro hand
      exact hc (by omega)
    rw [hpack, backpatch]
    rw [if_neg hc]
    simp [Stream.seekAbs, Stream.appended, Stream.tell, hlen]

theorem write_length_for_frame_spec (P body : List Nat) (st : Stream)
    (hdata : st.data = P ++ le4 0 ++ body) (hpos : st.pos = st.data.length) :
    write_length_for_frame P.length st =
      if body.length + 5 ≤ 2147483647 then
        (⟨P ++ le4 (body.length + 5) ++ (body ++ [0]),
          P.length + 4 + body.length + 1⟩, Option.none)
      else (⟨st.data ++ [0], st.data.length + 1⟩, some .structError) :=
  write_length_for_frame_mid P (le4 0) body rfl st hdata hpos

theorem AppendsOk.trans {st st1 st2 : Stream}
    (h1 : AppendsOk st st1) (h2 : AppendsOk st1 st2) : AppendsOk st st2 := by
  obtain ⟨⟨a1, ha1⟩, _⟩ := h1
  obtain ⟨⟨a2, ha2⟩, hp2⟩ := h2
  exact ⟨⟨a1 ++ a2, by rw [ha2, ha1, List.append_assoc]⟩, hp2⟩

theorem annotated_ok_iff (stack : List PyKey) (key : PyKey)
    (x : Except PyErr Stream) (st' : Stream) :
    annotated stack key x = .ok st' ↔ x = .ok st' := by
  cases x <;> simp [annotated]

/-- Whenever a container writer (`write_document`/`write_array` followed
by the element loop and `_write_length_for_frame`) succeeds from a
cursor-at-end state, it has appended
`tag ++ key ++ int32(L) ++ body ++ 0x00` with `L = 4 + |body| + 1`. -/
theorem container_close (tag : Nat) (key : PyKey) (st st4 st' : Stream)
    (hpos : st.pos = st.data.length)
    (h4 : AppendsOk (st.appended ([tag] ++ rawKeyBytes key ++ le4 0)) st4)
    (hok : closeFrame (write_length_for_frame
      ((st.appended ([tag] ++ rawKeyBytes key)).tell) st4) = .ok st') :
    ∃ body, st'.data = st.data ++ [tag] ++ rawKeyBytes key
        ++ le4 (body.length + 5) ++ body ++ [0]
      ∧ st'.pos = st'.data.length ∧ body.length + 5 ≤ 2147483647 := by
  obtain ⟨⟨body, hbody⟩, hp4⟩ := h4
  have hstart : (st.appended ([tag] ++ rawKeyBytes key)).tell
      = (st.data ++ [tag] ++ rawKeyBytes key).length := by
    simp [Stream.appended, Stream.tell]
  have hdata4 : st4.data = (st.data ++ [tag] ++ rawKeyBytes key) ++ le4 0 ++ body := by
    rw [hbody]
    simp [Stream.appended, List.append_assoc]
  rw [hstart, write_length_for_frame_spec (st.data ++ [tag] ++ rawKeyBytes key)
    body st4 hdata4 hp4] at hok
  by_cases hc : body.length + 5 ≤ 2147483647
  · rw [if_pos hc] at hok
    simp only [closeFrame] at hok
    have h2 : (⟨st.data ++ [tag] ++ rawKeyBytes key ++ le4 (body.length + 5)
        ++ (body ++ [0]),
        (st.data ++ [tag] ++ rawKeyBytes key).length + 4 + body.length + 1⟩ : Stream)
        = st' := by injection hok
    refine ⟨body, ?_, ?_, hc⟩
    · rw [← h2]
      simp [List.append_assoc]
    · rw [← h2]
      simp [le4_length, List.append_assoc]
      omega
  · rw [if_neg hc] at hok
    simp only [closeFrame] at hok
    cases hok

theorem encode_appends (n : Nat) :
    (∀ v stack key st st', sizeOf v ≤ n → st.pos = st.data.length →
      encodeElem stack key v st = .ok st' → AppendsOk st st') ∧
    (∀ items stack st st', sizeOf items ≤ n → st.pos = st.data.length →
      encodeElems stack items st = .ok st' → AppendsOk st st') ∧
    (∀ elems stack i st st', sizeOf elems ≤ n → st.pos = st.data.length →
      encodeArrElems stack i elems st = .ok st' → AppendsOk st st') := by
  induction n using Nat.strong_induction_on with
  | _ n IH =>
    refine ⟨?_, ?_, ?_⟩
    · intro v stack key st st' hsz hpos hok
      cases v with
      | doc items =>
        rw [encodeElem] at hok
        rw [tag_key_at_end 0x03 key st hpos] at hok
        rw [Stream.write_at_end_eq _ (le4 0) (st.appended_pos_eq _),
            Stream.appended_appended] at hok
        cases he : encodeElems (stack ++ [key]) items
            (st.appended ([0x03] ++ rawKeyBytes key ++ le4 0)) with
        | error e => rw [he, eBind_error] at hok; cases hok
        | ok st4 =>
          rw [he, eBind_ok] at hok
          have hszi : sizeOf items < n := by
            have hspec : sizeOf (PyValue.doc items) = 1 + sizeOf items := by
              simp
            omega
          have h4 : AppendsOk (st.appended ([0x03] ++ rawKeyBytes key ++ le4 0)) st4 :=
            (IH (sizeOf items) hszi).2.1 items (stack ++ [key]) _ st4 (le_refl _)
              (st.appended_pos_eq _) he
          obtain ⟨body, hb, hp, _⟩ := container_close 0x03 key st st4 st' hpos h4 hok
          exact ⟨⟨[0x03] ++ rawKeyBytes key ++ le4 (body.length + 5) ++ body ++ [0],
            by rw [hb]; simp [List.append_assoc]⟩, hp⟩
      | arr elems =>
        rw [encodeElem] at hok
        rw [tag_key_at_end 0x04 key st hpos] at hok
        rw [Stream.write_at_end_eq _ (le4 0) (st.appended_pos_eq _),
            Stream.appended_appended] at hok
        cases he : encodeArrElems (stack ++ [key]) 0 elems
            (st.appended ([0x04] ++ rawKeyBytes key ++ le4 0)) with
        | error e => rw [he, eBind_error] at hok; cases hok
        | ok st4 =>
          rw [he, eBind_ok] at hok
          have hszi : sizeOf elems < n := by
            have hspec : sizeOf (PyValue.arr elems) = 1 + sizeOf elems := by
              simp
            omega
          have h4 : AppendsOk (st.appended ([0x04] ++ rawKeyBytes key ++ le4 0)) st4 :=
            (IH (sizeOf elems) hszi).2.2 elems (stack ++ [key]) 0 _ st4 (le_refl _)
              (st.appended_pos_eq _) he
          obtain ⟨body, hb, hp, _⟩ := container_close 0x04 key st st4 st' hpos h4 hok
          exact ⟨⟨[0x04] ++ rawKeyBytes key ++ le4 (body.length + 5) ++ body ++ [0],
            by rw [hb]; simp [List.append_assoc]⟩, hp⟩
      | none =>
        simp only [encodeElem, annotated_ok_iff] at hok
        exact write_value_appends key _ st st' hpos hok
      | bool b =>
        simp only [encodeElem, annotated_ok_iff] at hok
        exact write_value_appends key _ st st' hpos hok
      | int m =>
        simp only [encodeElem, annotated_ok_iff] at hok
        exact write_value_appends key _ st st' hpos hok
      | float bits =>
        simp only [encodeElem, annotated_ok_iff] at hok
        exact write_value_appends key _ st st' hpos hok
      | datetime ms =>
        simp only [encodeElem, annotated_ok_iff] at hok
        exact write_value_appends key _ st st' hpos hok
      | str s =>
        simp only [encodeElem, annotated_ok_iff] at hok
        exact write_value_appends key _ st st' hpos hok
      | uuid u =>
        simp only [encodeElem, annotated_ok_iff] at hok
        exact write_value_appends key _ st st' hpos hok
      | bytes b =>
        simp only [encodeElem, annotated_ok_iff] at hok
        exact write_value_appends key _ st st' hpos hok
    · intro items stack st st' hsz hpos hok
      cases items with
      | nil =>
        rw [encodeElems] at hok
        have h2 : st = st' := by injection hok
        cases h2
        exact ⟨⟨[], by simp⟩, hpos⟩
      | cons kv rest =>
        obtain ⟨k, v⟩ := kv
        rw [encodeElems] at hok
        cases he : encodeElem stack k v st with
        | error e => rw [he, eBind_error] at hok; cases hok
        | ok st1 =>
          rw [he, eBind_ok] at hok
          have hszv : sizeOf v < n := by
            have hspec : sizeOf ((k, v) :: rest) = 1 + (1 + sizeOf k + sizeOf v)
                + sizeOf rest := by simp
            omega
          have hszr : sizeOf rest < n := by
            have hspec : sizeOf ((k, v) :: rest) = 1 + (1 + sizeOf k + sizeOf v)
                + sizeOf rest := by simp
            omega
          have h1 : AppendsOk st st1 :=
            (IH (sizeOf v) hszv).1 v stack k st st1 (le_refl _) hpos he
          have h2 : AppendsOk st1 st' :=
            (IH (sizeOf rest) hszr).2.1 rest stack st1 st' (le_refl _) h1.2 hok
          exact h1.trans h2
    · intro elems stack i st st' hsz hpos hok
      cases elems with
      | nil =>
        rw [encodeArrElems] at hok
        have h2 : st = st' := by injection hok
        cases h2
        exact ⟨⟨[], by simp⟩, hpos⟩
      | cons v rest =>
        rw [encodeArrElems] at hok
        cases he : encodeElem stack (.int (i : Int)) v st with
        | error e => rw [he, eBind_error] at hok; cases hok
        | ok st1 =>
          rw [he, eBind_ok] at hok
          have hszv : sizeOf v < n := by
            have hspec : sizeOf (v :: rest) = 1 + sizeOf v + sizeOf rest := by simp
            omega
          have hszr : sizeOf rest < n := by
            have hspec : sizeOf (v :: rest) = 1 + sizeOf v + sizeOf rest := by simp
            omega
          have h1 : AppendsOk st st1 :=
            (IH (sizeOf v) hszv).1 v stack (.int (i : Int)) st st1 (le_refl _) hpos he
          have h2 : AppendsOk st1 st' :=
            (IH (sizeOf rest) hszr).2.2 rest stack (i + 1) st1 st' (le_refl _) h1.2 hok
          exact h1.trans h2

/-! ## Reading a length field back -/

theorem le4_recompose (L : Nat) (h : L < 4294967296) :
    L % 256 + 256 * (L / 256 % 256) + 65536 * (L / 65536 % 256)
      + 16777216 * (L / 16777216 % 256) = L := by
  omega

theorem unpackInt32_le4 (L : Nat) (h : L < 2147483648) :
    unpackInt32 (le4 L) = .ok (L : Int) := by
  simp only [le4, unpackInt32]
  rw [le4_recompose L (by omega)]
  rw [if_pos h]

theorem parse_int32_at (pre post : List Nat) (L : Nat) (h : L < 2147483648) :
    parse_int32 ⟨pre ++ le4 L ++ post, pre.length⟩
      = .ok ((L : Int), ⟨pre ++ le4 L ++ post, pre.length + 4⟩) := by
  have hbuff : ((pre ++ le4 L ++ post).drop pre.length).take 4 = le4 L := by
    rw [List.append_assoc, List.drop_left pre (le4 L ++ post)]
    rw [show 4 = (le4 L).length from rfl]
    exact List.take_left (le4 L) post
  have hmin : min (pre.length + 4) (pre ++ le4 L ++ post).length
      = pre.length + 4 := by
    simp [List.length_append, le4_length]
  simp only [parse_int32, Stream.read, hbuff, hmin,
    unpackInt32_le4 L h, eBind_ok]

/-! ## Claim theorems -/

/-- Claim C3: for every document or array frame written by the encoder,
the finalized 4-byte length field at the frame's start equals exactly
the number of bytes from the start of that length field to and
including the frame's terminating zero byte.  The three conjuncts cover
every frame the encoder ever writes: a nested document element, a
nested array element (both written by the element loop from a
cursor-at-end state, which every encoder state satisfies by
`encode_appends`), and the root frame written by `dump`/`dumps`.  In
each case the frame's bytes from the length field on are
`le4 L ++ body ++ [0]` with `L` equal to that span's length, and the
field reads back through the decoder's own `parse_int32` as `L`. -/
theorem c3_length_field_correct (items : List (PyKey × PyValue))
    (elems : List PyValue) (stack : List PyKey) (key : PyKey) (st : Stream)
    (hpos : st.pos = st.data.length) :
    (∀ st', encodeElem stack key (.doc items) st = .ok st' →
      ∃ body L,
        st'.data = st.data ++ [0x03] ++ rawKeyBytes key ++ le4 L ++ body ++ [0]
        ∧ L = (le4 L ++ body ++ [0]).length
        ∧ parse_int32 ⟨st'.data, (st.data ++ [0x03] ++ rawKeyBytes key).length⟩
            = .ok ((L : Int),
                   ⟨st'.data, (st.data ++ [0x03] ++ rawKeyBytes key).length + 4⟩))
    ∧ (∀ st', encodeElem stack key (.arr elems) st = .ok st' →
      ∃ body L,
        st'.data = st.data ++ [0x04] ++ rawKeyBytes key ++ le4 L ++ body ++ [0]
        ∧ L = (le4 L ++ body ++ [0]).length
        ∧ parse_int32 ⟨st'.data, (st.data ++ [0x04] ++ rawKeyBytes key).length⟩
            = .ok ((L : Int),
                   ⟨st'.data, (st.data ++ [0x04] ++ rawKeyBytes key).length + 4⟩))
    ∧ (∀ out, dumps (.doc items) = .ok out →
      ∃ body L, out = le4 L ++ body ++ [0]
        ∧ L = out.length
        ∧ parse_int32 ⟨out, 0⟩ = .ok ((L : Int), ⟨out, 4⟩)) := by
  refine ⟨?_, ?_, ?_⟩
  · intro st' hok
    rw [encodeElem] at hok
    rw [tag_key_at_end 0x03 key st hpos] at hok
    rw [Stream.write_at_end_eq _ (le4 0) (st.appended_pos_eq _),
        Stream.appended_appended] at hok
    cases he : encodeElems (stack ++ [key]) items
        (st.appended ([0x03] ++ rawKeyBytes key ++ le4 0)) with
    | error e => rw [he, eBind_error] at hok; cases hok
    | ok st4 =>
      rw [he, eBind_ok] at hok
      have h4 : AppendsOk (st.appended ([0x03] ++ rawKeyBytes key ++ le4 0)) st4 :=
        (encode_appends (sizeOf items)).2.1 items (stack ++ [key]) _ st4 (le_refl _)
          (st.appended_pos_eq _) he
      obtain ⟨body, hb, hp, hc⟩ := container_close 0x03 key st st4 st' hpos h4 hok
      refine ⟨body, body.length + 5, ?_, ?_, ?_⟩
      · exact hb
      · simp [le4_length]
        omega
      · have hread := parse_int32_at (st.data ++ [0x03] ++ rawKeyBytes key)
          (body ++ [0]) (body.length + 5) (by omega)
        have hshape : st'.data = (st.data ++ [0x03] ++ rawKeyBytes key)
            ++ le4 (body.length + 5) ++ (body ++ [0]) := by
          rw [hb]; simp [List.append_assoc]
        rw [hshape]
        exact hread
  · intro st' hok
    rw [encodeElem] at hok
    rw [tag_key_at_end 0x04 key st hpos] at hok
    rw [Stream.write_at_end_eq _ (le4 0) (st.appended_pos_eq _),
        Stream.appended_appended] at hok
    cases he : encodeArrElems (stack ++ [key]) 0 elems
        (st.appended ([0x04] ++ rawKeyBytes key ++ le4 0)) with
    | error e => rw [he, eBind_error] at hok; cases hok
    | ok st4 =>
      rw [he, eBind_ok] at hok
      have h4 : AppendsOk (st.appended ([0x04] ++ rawKeyBytes key ++ le4 0)) st4 :=
        (encode_appends (sizeOf elems)).2.2 elems (stack ++ [key]) 0 _ st4 (le_refl _)
          (st.appended_pos_eq _) he
      obtain ⟨body, hb, hp, hc⟩ := container_close 0x04 key st st4 st' hpos h4 hok
      refine ⟨body, body.length + 5, ?_, ?_, ?_⟩
      · exact hb
      · simp [le4_length]
        omega
      · have hread := parse_int32_at (st.data ++ [0x04] ++ rawKeyBytes key)
          (body ++ [0]) (body.length + 5) (by omega)
        have hshape : st'.data = (st.data ++ [0x04] ++ rawKeyBytes key)
            ++ le4 (body.length + 5) ++ (body ++ [0]) := by
          rw [hb]; simp [List.append_assoc]
        rw [hshape]
        exact hread
  · intro out hout
    rw [dumps, dump] at hout
    rw [Stream.write_at_end_eq ⟨[], 0⟩ (le4 0) rfl] at hout
    cases he : encodeElems [.str []] items (Stream.appended ⟨[], 0⟩ (le4 0)) with
    | error e => rw [he, eBind_error, eBind_error] at hout; cases hout
    | ok st2 =>
      rw [he, eBind_ok] at hout
      have h2 : AppendsOk (Stream.appended ⟨[], 0⟩ (le4 0)) st2 :=
        (encode_appends (sizeOf items)).2.1 items [.str []] _ st2 (le_refl _)
          (Stream.appended_pos_eq _ _) he
      obtain ⟨⟨body, hbody⟩, hp2⟩ := h2
      have hdata2 : st2.data = ([] : List Nat) ++ le4 0 ++ body := by
        rw [hbody]; simp [Stream.appended]
      have htell : Stream.tell ⟨[], 0⟩ = ([] : List Nat).length := rfl
      rw [htell, write_length_for_frame_spec ([] : List Nat) body st2 hdata2 hp2]
        at hout
      by_cases hc : body.length + 5 ≤ 2147483647
      · rw [if_pos hc] at hout
        simp only [closeFrame, eBind_ok] at hout
        have h3 : ([] : List Nat) ++ le4 (body.length + 5) ++ (body ++ [0]) = out := by
          injection hout
        refine ⟨body, body.length + 5, ?_, ?_, ?_⟩
        · rw [← h3]; simp [List.append_assoc]
        · rw [← h3]; simp [le4_length]
          omega
        · have hread := parse_int32_at ([] : List Nat) (body ++ [0])
            (body.length + 5) (by omega)
          rw [← h3]
          simpa using hread
      · rw [if_neg hc] at hout
        simp only [closeFrame, eBind_error] at hout
        cases hout

/-- Witness for C3: the concrete nested empty document `{k: {}}` frame,
whose length field is 5 and whose span `le4 5 ++ [] ++ [0]` has length 5. -/
theorem c3_length_field_correct_witness :
    ((⟨[], 0⟩ : Stream).pos = (⟨[], 0⟩ : Stream).data.length
     ∧ encodeElem [] (.str [107]) (.doc []) ⟨[], 0⟩
        = .ok ⟨[3, 107, 0, 5, 0, 0, 0, 0], 8⟩)
    ∧ (∃ body L,
        (⟨[3, 107, 0, 5, 0, 0, 0, 0], 8⟩ : Stream).data
          = ([] : List Nat) ++ [0x03] ++ rawKeyBytes (.str [107]) ++ le4 L ++ body ++ [0]
        ∧ L = (le4 L ++ body ++ [0]).length
        ∧ parse_int32 ⟨(⟨[3, 107, 0, 5, 0, 0, 0, 0], 8⟩ : Stream).data,
              (([] : List Nat) ++ [0x03] ++ rawKeyBytes (.str [107])).length⟩
            = .ok ((L : Int),
                   ⟨(⟨[3, 107, 0, 5, 0, 0, 0, 0], 8⟩ : Stream).data,
                    (([] : List Nat) ++ [0x03] ++ rawKeyBytes (.str [107])).length + 4⟩)) :=
  ⟨⟨rfl, rfl⟩,
   (c3_length_field_correct [] [] [] (.str [107]) ⟨[], 0⟩ rfl).1
     ⟨[3, 107, 0, 5, 0, 0, 0, 0], 8⟩ rfl⟩

/-- Claim C10: when the encoder closes a frame
(`_write_length_for_frame` on a stream whose buffer is
`A ++ M ++ B` with the 4-byte placeholder `M` starting at offset
`|A|` and the cursor at the end), the result appends exactly one
terminator byte, overwrites only the placeholder (`A` and `B` are
untouched), and leaves the cursor just after the terminator
(`|A| + 4 + |B| + 1 = |data| + 1`); when packing the backpatched length
raises (`|B| + 5` exceeds the signed 32-bit maximum), nothing is
overwritten, the terminator is still appended, and the cursor is still
restored to just after it by the `finally` block. -/
theorem c10_close_frame_effect (A M B : List Nat) (st : Stream)
    (hM : M.length = 4) (hdata : st.data = A ++ M ++ B)
    (hpos : st.pos = st.data.length) :
    write_length_for_frame A.length st =
      if B.length + 5 ≤ 2147483647 then
        (⟨A ++ le4 (B.length + 5) ++ (B ++ [0]), A.length + 4 + B.length + 1⟩,
         Option.none)
      else (⟨st.data ++ [0], st.data.length + 1⟩, some .structError) :=
  write_length_for_frame_mid A M B hM st hdata hpos

/-- Witness for C10 at the concrete stream `[9,9] ++ [0,0,0,0] ++ [5,6]`
with the cursor at the end. -/
theorem c10_close_frame_effect_witness :
    (([0, 0, 0, 0] : List Nat).length = 4
     ∧ (⟨[9, 9, 0, 0, 0, 0, 5, 6], 8⟩ : Stream).data = [9, 9] ++ [0, 0, 0, 0] ++ [5, 6]
     ∧ (⟨[9, 9, 0, 0, 0, 0, 5, 6], 8⟩ : Stream).pos
        = (⟨[9, 9, 0, 0, 0, 0, 5, 6], 8⟩ : Stream).data.length)
    ∧ write_length_for_frame ([9, 9] : List Nat).length ⟨[9, 9, 0, 0, 0, 0, 5, 6], 8⟩
      = if ([5, 6] : List Nat).length + 5 ≤ 2147483647 then
          (⟨[9, 9] ++ le4 (([5, 6] : List Nat).length + 5) ++ ([5, 6] ++ [0]),
            ([9, 9] : List Nat).length + 4 + ([5, 6] : List Nat).length + 1⟩,
           Option.none)
        else (⟨(⟨[9, 9, 0, 0, 0, 0, 5, 6], 8⟩ : Stream).data ++ [0],
               (⟨[9, 9, 0, 0, 0, 0, 5, 6], 8⟩ : Stream).data.length + 1⟩,
              some .structError) :=
  ⟨⟨rfl, rfl, rfl⟩,
   c10_close_frame_effect [9, 9] [0, 0, 0, 0] [5, 6] ⟨[9, 9, 0, 0, 0, 0, 5, 6], 8⟩
     rfl rfl rfl⟩

/-- Claim C7: every boolean value is written with tag `0x08` and a
one-byte `0x01`/`0x00` payload, never with an integer tag — even though
`isinstance(v, int)` holds for booleans (first conjunct), because the
dispatch checks the boolean classification first.  The element's bytes
are fully determined: tag `0x08` at the element start (last conjunct),
then the key, then the payload byte. -/
theorem c7_bool_written_with_bool_tag (b : Bool) (key : PyKey)
    (stack : List PyKey) (st : Stream) (hpos : st.pos = st.data.length) :
    isinstance_int (.bool b) = true
    ∧ encodeElem stack key (.bool b) st
        = .ok (st.appended ([0x08] ++ rawKeyBytes key ++ [if b then 1 else 0]))
    ∧ (st.appended ([0x08] ++ rawKeyBytes key
        ++ [if b then 1 else 0])).data.get? st.data.length = some 0x08 := by
  have hv : write_value key (.bool b) st
      = .ok (st.appended ([0x08] ++ rawKeyBytes key ++ [if b then 1 else 0])) := by
    have hb := write_bool_at_end key (asBool (.bool b)) st hpos
    simp only [write_value, isinstance_bool, if_pos]
    exact hb
  refine ⟨rfl, ?_, ?_⟩
  · simp only [encodeElem, annotated, hv]
  · simp only [Stream.appended, List.get?_eq_getElem?]
    rw [List.getElem?_append_right (le_refl st.data.length)]
    simp

/-- Witness for C7 at `b = true`, key `"k"`, the empty stream. -/
theorem c7_bool_written_with_bool_tag_witness :
    ((⟨[], 0⟩ : Stream).pos = (⟨[], 0⟩ : Stream).data.length)
    ∧ (isinstance_int (.bool true) = true
       ∧ encodeElem [] (.str [107]) (.bool true) ⟨[], 0⟩
          = .ok ((⟨[], 0⟩ : Stream).appended
              ([0x08] ++ rawKeyBytes (.str [107]) ++ [if true then 1 else 0]))
       ∧ ((⟨[], 0⟩ : Stream).appended ([0x08] ++ rawKeyBytes (.str [107])
            ++ [if true then 1 else 0])).data.get?
              (⟨[], 0⟩ : Stream).data.length = some 0x08) :=
  ⟨rfl, c7_bool_written_with_bool_tag true (.str [107]) [] ⟨[], 0⟩ rfl⟩

/-- Counterexample for C6: `2147483648 = 2^31` lies inside the source's
`[-2^31, 2^32 - 1]` window, so the claim says it is written with tag
`0x10` and a 4-byte payload; instead `INT32_STRUCT.pack` (signed!)
raises `struct.error` and nothing is written. -/
theorem c6_counterexample :
    (INT32_LOWERBOUND ≤ (2147483648 : Int)
      ∧ (2147483648 : Int) ≤ INT32_UPPERBOUND)
    ∧ write_value (.str [118]) (.int 2147483648) ⟨[], 0⟩ = .error .structError := by
  constructor
  · constructor <;> decide
  · rfl

/-- Claim C6 (amended): the encoder selects the 64-bit path exactly when
the value lies outside `[-2^31, 2^32-1]` (the source's window); on the
64-bit path the write succeeds with tag `0x12` and an 8-byte payload iff
the value also fits in signed 64 bits, and on the 32-bit path it
succeeds with tag `0x10` and a 4-byte payload iff the value also fits in
*signed* 32 bits — for values in `(2^31-1, 2^32-1]` the selected pack
raises `struct.error`. -/
theorem c6_int_width_dispatch (v : Int) (key : PyKey) (st : Stream)
    (hpos : st.pos = st.data.length) :
    ((v < INT32_LOWERBOUND ∨ v > INT32_UPPERBOUND) →
      write_value key (.int v) st = write_int64 key v st
      ∧ ((v < -9223372036854775808 ∨ v > 9223372036854775807) →
          write_value key (.int v) st = .error .structError)
      ∧ (-9223372036854775808 ≤ v ∧ v ≤ 9223372036854775807 →
          ∃ bs, bs.length = 8
            ∧ write_value key (.int v) st
              = .ok (st.appended ([0x12] ++ rawKeyBytes key ++ bs))))
    ∧ (¬(v < INT32_LOWERBOUND ∨ v > INT32_UPPERBOUND) →
      write_value key (.int v) st = write_int32 key v st
      ∧ (v > 2147483647 →
          write_value key (.int v) st = .error .structError)
      ∧ (v ≤ 2147483647 →
          ∃ bs, bs.length = 4
            ∧ write_value key (.int v) st
              = .ok (st.appended ([0x10] ++ rawKeyBytes key ++ bs)))) := by
  have hwv : write_value key (.int v) st
      = if v < INT32_LOWERBOUND ∨ v > INT32_UPPERBOUND then write_int64 key v st
        else write_int32 key v st := rfl
  constructor
  · intro hv1
    rw [hwv, if_pos hv1]
    refine ⟨rfl, ?_, ?_⟩
    · intro hout
      rw [write_int64_at_end key v st hpos]
      have hpk : packInt64 v = .error .structError := by
        rw [packInt64, if_neg]
        intro hand
        rcases hout with hlt | hgt
        · omega
        · omega
      rw [hpk]
    · intro hin
      rw [write_int64_at_end key v st hpos]
      have hpk : packInt64 v = .ok (le8 (v % 18446744073709551616).toNat) := by
        rw [packInt64, if_pos hin]
      rw [hpk]
      exact ⟨le8 (v % 18446744073709551616).toNat, rfl, rfl⟩
  · intro hv2
    rw [hwv, if_neg hv2]
    refine ⟨rfl, ?_, ?_⟩
    · intro hgt
      rw [write_int32_at_end key v st hpos]
      have hpk : packInt32 v = .error .structError := by
        rw [packInt32, if_neg]
        intro hand
        omega
      rw [hpk]
    · intro hle
      rw [write_int32_at_end key v st hpos]
      have hlow : INT32_LOWERBOUND ≤ v := by
        rw [INT32_LOWERBOUND]
        simp only [not_or, not_lt] at hv2
        exact_mod_cast hv2.1
      have hpk : packInt32 v = .ok (le4 (v % 4294967296).toNat) := by
        rw [packInt32, if_pos]
        constructor
        · rw [INT32_LOWERBOUND] at hlow
          exact hlow
        · exact hle
      rw [hpk]
      exact ⟨le4 (v % 4294967296).toNat, rfl, rfl⟩

/-- Witness for C6: `v = 5` takes the 32-bit path and appends
`0x10 ++ key ++ 4 bytes`; `v = 2^33` takes the 64-bit path. -/
theorem c6_int_width_dispatch_witness :
    ((⟨[], 0⟩ : Stream).pos = (⟨[], 0⟩ : Stream).data.length
     ∧ ¬((5 : Int) < INT32_LOWERBOUND ∨ (5 : Int) > INT32_UPPERBOUND)
     ∧ (5 : Int) ≤ 2147483647)
    ∧ (∃ bs, bs.length = 4
        ∧ write_value (.str [118]) (.int 5) ⟨[], 0⟩
          = .ok ((⟨[], 0⟩ : Stream).appended
              ([0x10] ++ rawKeyBytes (.str [118]) ++ bs))) :=
  ⟨⟨rfl, by decide, by decide⟩,
   ((c6_int_width_dispatch 5 (.str [118]) ⟨[], 0⟩ rfl).2 (by decide)).2.2 (by decide)⟩

/-- Counterexample for C5: `register_opcode` does not reject the
nested-document tag `0x03`, the nested-array tag `0x04`, or the reserved
terminator tag `0x00` — it installs the callback for each of them. -/
theorem c5_counterexample :
    ((register_opcode bson_decoder_default 0x03 (.custom 0)).opcodeMapping 0x03
      = some (.custom 0))
    ∧ ((register_opcode bson_decoder_default 0x04 (.custom 0)).opcodeMapping 0x04
      = some (.custom 0))
    ∧ ((register_opcode bson_decoder_default 0x00 (.custom 0)).opcodeMapping 0x00
      = some (.custom 0)) :=
  ⟨rfl, rfl, rfl⟩

/-- Claim C5 (amended): `register_opcode` is a plain dict assignment and
never fails: for *every* opcode — including `0x00`, `0x03` and `0x04` —
the callback is installed into the mapping. -/
theorem c5_register_always_installs (sc : Scanner) (opcode : Nat) (cb : Handler) :
    (register_opcode sc opcode cb).opcodeMapping opcode = some cb := by
  simp [register_opcode]

/-- Claim C8: encoding a non-document root does *not* raise
`BSONEncodeError`.  The source executes
`raise errors.BSONEncodeError('Root object must be a dict!')` with one
positional argument, but `BSONEncodeError.__init__(self, key, msg, ...)`
requires two, so constructing the exception raises `TypeError` — and
that `TypeError`, not an encode error, is what propagates. -/
theorem c8_nondict_root_raises_type_error :
    dumps (.int 5) = .error .typeError
    ∧ dumps (.bool true) = .error .typeError
    ∧ (∀ k, PyErr.typeError ≠ PyErr.bsonEncodeError k) :=
  ⟨rfl, rfl, fun k h => by cases h⟩

/-- Claim C1: round-tripping fails on the repository's own nested-doc
test vector.  `dumps({'key': {'value': 'a'}, 'key2': 'b'})` produces the
40 bytes the test suite expects, but `loads` of those bytes raises
`TypeError`: when the decode engine pushes the nested frame it calls
`util.DocumentFrame(key, nested_fpos, length, is_array, parent=frame)`,
passing `parent` both positionally (the third positional argument is the
parsed length) and by keyword — `codec_util.DocumentFrame.__init__` has
signature `(key, fpos, parent=None, length=None, is_array=False,
ext_data=None)`. -/
theorem c1_roundtrip_fails_on_nested_doc :
    dumps (.doc [(.str [107, 101, 121], .doc [(.str [118, 97, 108, 117, 101],
                    .str [97])]),
                 (.str [107, 101, 121, 50], .str [98])])
      = .ok [40, 0, 0, 0, 3, 107, 101, 121, 0, 18, 0, 0, 0, 2, 118, 97, 108,
             117, 101, 0, 2, 0, 0, 0, 97, 0, 0, 2, 107, 101, 121, 50, 0, 2, 0,
             0, 0, 98, 0, 0]
    ∧ loads bson_decoder_default
        [40, 0, 0, 0, 3, 107, 101, 121, 0, 18, 0, 0, 0, 2, 118, 97, 108, 117,
         101, 0, 2, 0, 0, 0, 97, 0, 0, 2, 107, 101, 121, 50, 0, 2, 0, 0, 0, 98,
         0, 0]
      = .error .typeError :=
  ⟨rfl, rfl⟩

/-- Counterexample for C4: the encoded form of `{value: 123}` is 16
bytes (and its length field reads 16), not 14 as the claim states. -/
theorem c4_counterexample :
    dumps (.doc [(.str [118, 97, 108, 117, 101], .int 123)])
      = .ok [16, 0, 0, 0, 16, 118, 97, 108, 117, 101, 0, 123, 0, 0, 0, 0]
    ∧ ([16, 0, 0, 0, 16, 118, 97, 108, 117, 101, 0, 123, 0, 0, 0, 0]
        : List Nat).length = 16
    ∧ (16 : Nat) ≠ 14 :=
  ⟨rfl, rfl, by decide⟩

/-- Claim C4 (amended): encoding `{value: 123}` produces a document
whose element carries tag `0x10` (byte 4 of the output) and whose total
encoded length is 16 bytes (the length field reads 16), and decoding
those bytes yields the document back. -/
theorem c4_int32_vector :
    dumps (.doc [(.str [118, 97, 108, 117, 101], .int 123)])
      = .ok [16, 0, 0, 0, 16, 118, 97, 108, 117, 101, 0, 123, 0, 0, 0, 0]
    ∧ ([16, 0, 0, 0, 16, 118, 97, 108, 117, 101, 0, 123, 0, 0, 0, 0]
        : List Nat).get? 4 = some 0x10
    ∧ ([16, 0, 0, 0, 16, 118, 97, 108, 117, 101, 0, 123, 0, 0, 0, 0]
        : List Nat).length = 16
    ∧ parse_int32 ⟨[16, 0, 0, 0, 16, 118, 97, 108, 117, 101, 0, 123, 0, 0, 0, 0], 0⟩
      = .ok ((16 : Int),
             ⟨[16, 0, 0, 0, 16, 118, 97, 108, 117, 101, 0, 123, 0, 0, 0, 0], 4⟩)
    ∧ loads bson_decoder_default
        [16, 0, 0, 0, 16, 118, 97, 108, 117, 101, 0, 123, 0, 0, 0, 0]
      = .ok (some (.dict [(.str [118, 97, 108, 117, 101], .int 123)])) :=
  ⟨rfl, rfl, rfl, rfl, rfl⟩

/-- Claim C2: on the encoder's own output for
`{'key': {'value': 'a'}, 'key2': 'b'}` the nested subtree occupies bytes
`[9, 27)` (its length field at offset 9 reads 18, and 9 + 18 = 27), so
the byte immediately following the subtree is 27; but answering the
nested-document start event with the skip directive leaves the stream
cursor at 31 = 27 + 4 — the engine seeks by the raw length from the
position *after* the 4-byte length field it already consumed, although
that length includes those 4 bytes.  The run below is fully concrete:
init, one step to the nested-document event for key `'key'`, then the
skip resolution. -/
theorem c2_skip_resumes_past_subtree_end :
    (dumps (.doc [(.str [107, 101, 121], .doc [(.str [118, 97, 108, 117, 101],
                     .str [97])]),
                  (.str [107, 101, 121, 50], .str [98])])
      = .ok [40, 0, 0, 0, 3, 107, 101, 121, 0, 18, 0, 0, 0, 2, 118, 97, 108,
             117, 101, 0, 2, 0, 0, 0, 97, 0, 0, 2, 107, 101, 121, 50, 0, 2, 0,
             0, 0, 98, 0, 0]
    ∧ iterdecode_init ⟨[40, 0, 0, 0, 3, 107, 101, 121, 0, 18, 0, 0, 0, 2, 118,
        97, 108, 117, 101, 0, 2, 0, 0, 0, 97, 0, 0, 2, 107, 101, 121, 50, 0, 2,
        0, 0, 0, 98, 0, 0], 0⟩
      = .ok (⟨0, .str [], .nestedDocument⟩,
             { stm := ⟨[40, 0, 0, 0, 3, 107, 101, 121, 0, 18, 0, 0, 0, 2, 118,
                 97, 108, 117, 101, 0, 2, 0, 0, 0, 97, 0, 0, 2, 107, 101, 121,
                 50, 0, 2, 0, 0, 0, 98, 0, 0], 4⟩,
               arena := [{ key := .str [], fpos := 0, offset := 0,
                           parent := .int 40, length := .bool false,
                           is_array := .bool false, ext_data := Option.none }],
               stack := [0], pending := Option.none })
    ∧ iterdecode_next bson_decoder_default
        { stm := ⟨[40, 0, 0, 0, 3, 107, 101, 121, 0, 18, 0, 0, 0, 2, 118, 97,
            108, 117, 101, 0, 2, 0, 0, 0, 97, 0, 0, 2, 107, 101, 121, 50, 0, 2,
            0, 0, 0, 98, 0, 0], 4⟩,
          arena := [{ key := .str [], fpos := 0, offset := 0,
                      parent := .int 40, length := .bool false,
                      is_array := .bool false, ext_data := Option.none }],
          stack := [0], pending := Option.none } Option.none
      = .ok (some (⟨0, .str [107, 101, 121], .nestedDocument⟩,
             { stm := ⟨[40, 0, 0, 0, 3, 107, 101, 121, 0, 18, 0, 0, 0, 2, 118,
                 97, 108, 117, 101, 0, 2, 0, 0, 0, 97, 0, 0, 2, 107, 101, 121,
                 50, 0, 2, 0, 0, 0, 98, 0, 0], 13⟩,
               arena := [{ key := .str [], fpos := 0, offset := 0,
                           parent := .int 40, length := .bool false,
                           is_array := .bool false, ext_data := Option.none }],
               stack := [0],
               pending := some (.str [107, 101, 121], 9, 18, false, 0) }))
    ∧ resolve_pending
        { stm := ⟨[40, 0, 0, 0, 3, 107, 101, 121, 0, 18, 0, 0, 0, 2, 118, 97,
            108, 117, 101, 0, 2, 0, 0, 0, 97, 0, 0, 2, 107, 101, 121, 50, 0, 2,
            0, 0, 0, 98, 0, 0], 13⟩,
          arena := [{ key := .str [], fpos := 0, offset := 0,
                      parent := .int 40, length := .bool false,
                      is_array := .bool false, ext_data := Option.none }],
          stack := [0],
          pending := some (.str [107, 101, 121], 9, 18, false, 0) }
        (some .skipKey)
      = .ok { stm := ⟨[40, 0, 0, 0, 3, 107, 101, 121, 0, 18, 0, 0, 0, 2, 118,
                97, 108, 117, 101, 0, 2, 0, 0, 0, 97, 0, 0, 2, 107, 101, 121,
                50, 0, 2, 0, 0, 0, 98, 0, 0], 31⟩,
              arena := [{ key := .str [], fpos := 0, offset := 0,
                          parent := .int 40, length := .bool false,
                          is_array := .bool false, ext_data := Option.none }],
              stack := [0], pending := Option.none })
    ∧ parse_int32 ⟨[40, 0, 0, 0, 3, 107, 101, 121, 0, 18, 0, 0, 0, 2, 118, 97,
        108, 117, 101, 0, 2, 0, 0, 0, 97, 0, 0, 2, 107, 101, 121, 50, 0, 2, 0,
        0, 0, 98, 0, 0], 9⟩
      = .ok ((18 : Int), ⟨[40, 0, 0, 0, 3, 107, 101, 121, 0, 18, 0, 0, 0, 2,
             118, 97, 108, 117, 101, 0, 2, 0, 0, 0, 97, 0, 0, 2, 107, 101, 121,
             50, 0, 2, 0, 0, 0, 98, 0, 0], 13⟩)
    ∧ (9 + 18 = 27 ∧ (31 : Nat) = 27 + 4 ∧ (31 : Nat) ≠ 27) :=
  ⟨⟨rfl, rfl, rfl, rfl⟩, rfl, rfl, rfl, by decide⟩

/-- Counterexample for C9: the bytes `C3 28` before the terminator are
not valid UTF-8, no fallback is configured anywhere in `parse_ename`,
and yet the scan does not fail — it silently returns the raw bytes
(`except Exception: pass`). -/
theorem c9_counterexample :
    utf8Valid [195, 40] = false
    ∧ parse_ename ⟨[195, 40, 0, 7], 0⟩ true
      = .ok (.bytes [195, 40], ⟨[195, 40, 0, 7], 3⟩) :=
  ⟨rfl, rfl⟩

theorem scan_none_of_no_zero (xs : List Nat) (hz : ∀ b ∈ xs, b ≠ 0) :
    scan_for_null_terminator xs = Option.none := by
  induction xs with
  | nil => rfl
  | cons b rest IH =>
    rw [scan_for_null_terminator]
    rw [if_neg (hz b (List.mem_cons_self b rest))]
    rw [IH (fun x hx => hz x (List.mem_cons_of_mem b hx))]
    rfl

theorem scan_finds_first_zero (xs ys : List Nat) (hz : ∀ b ∈ xs, b ≠ 0) :
    scan_for_null_terminator (xs ++ 0 :: ys) = some xs.length := by
  induction xs with
  | nil => simp [scan_for_null_terminator]
  | cons b rest IH =>
    rw [List.cons_append, scan_for_null_terminator]
    rw [if_neg (hz b (List.mem_cons_self b rest))]
    rw [IH (fun x hx => hz x (List.mem_cons_of_mem b hx))]
    rfl

theorem parse_ename_loop_spec (fuel : Nat) :
    ∀ (pre body rest acc : List Nat) (st : Stream),
    st.data = pre ++ body ++ (0 :: rest) →
    st.pos = pre.length →
    (∀ b ∈ body, b ≠ 0) →
    body.length < 1024 * fuel →
    parse_ename_loop fuel st acc
      = .ok (acc ++ body ++ [0], ⟨st.data, pre.length + body.length + 1⟩) := by
  induction fuel with
  | zero =>
    intro pre body rest acc st _ _ _ hfuel
    omega
  | succ fuel' IH =>
    intro pre body rest acc st hdata hpos hz hfuel
    have hdrop : st.data.drop st.pos = body ++ 0 :: rest := by
      rw [hdata, hpos, List.append_assoc]
      exact List.drop_left pre (body ++ 0 :: rest)
    have hlen : st.data.length = pre.length + body.length + 1 + rest.length := by
      rw [hdata]
      simp [List.length_append]
      omega
    rw [parse_ename_loop]
    by_cases hsmall : body.length < 1024
    · have hpeek : (st.read 1024).1 = body ++ 0 :: (rest.take (1023 - body.length)) := by
        simp only [Stream.read, hdrop]
        rw [List.take_append_eq_append_take]
        rw [List.take_of_length_le (by omega)]
        congr 1
        rw [show 1024 - body.length = (1023 - body.length) + 1 by omega]
        rfl
      have hscan : scan_for_null_terminator ((st.read 1024).1) = some body.length :=
        by rw [hpeek]; exact scan_finds_first_zero body _ hz
      rw [hscan]
      dsimp only
      have htake : ((st.read 1024).1).take (body.length + 1) = body ++ [0] := by
        rw [hpeek, List.take_append_eq_append_take,
            List.take_of_length_le (by omega)]
        congr 1
        rw [show body.length + 1 - body.length = 1 by omega]
        rfl
      rw [htake]
      have hplen : ((st.read 1024).1).length = min 1024 (body.length + 1 + rest.length) := by
        simp [Stream.read, hdrop]
        omega
      have hr2pos : ((st.read 1024).2).pos
          = st.pos + min 1024 (body.length + 1 + rest.length) := by
        simp only [Stream.read]
        omega
      have hr2data : ((st.read 1024).2).data = st.data := rfl
      have htarget : ((((st.read 1024).2).pos : Int)
          + ((body.length : Int) - (((st.read 1024).1).length : Int) + 1)).toNat
          = pre.length + body.length + 1 := by
        rw [hr2pos, hplen, hpos]
        omega
      rw [List.append_assoc, htarget]
      simp [Stream.seekAbs, hr2data]
    · have hpeek : (st.read 1024).1 = body.take 1024 := by
        simp only [Stream.read, hdrop]
        rw [List.take_append_of_le_length (by omega)]
      have hscan : scan_for_null_terminator ((st.read 1024).1) = Option.none := by
        rw [hpeek]
        exact scan_none_of_no_zero _ (fun b hb => hz b (List.mem_of_mem_take hb))
      rw [hscan]
      dsimp only
      have hplen : ((st.read 1024).1).length = 1024 := by
        rw [hpeek, List.length_take]
        omega
      rw [if_neg (by omega)]
      have hr2 : (st.read 1024).2
          = ⟨st.data, (pre ++ body.take 1024).length⟩ := by
        simp only [Stream.read]
        congr 1
        rw [hpos]
        simp [List.length_append, List.length_take]
        omega
      rw [hr2, hpeek]
      rw [IH (pre ++ body.take 1024) (body.drop 1024) rest (acc ++ body.take 1024)
        ⟨st.data, (pre ++ body.take 1024).length⟩
        (by rw [hdata]
            simp only [List.append_assoc]
            congr 1
            rw [← List.append_assoc, List.take_append_drop])
        rfl
        (fun b hb => hz b (List.mem_of_mem_drop hb))
        (by rw [List.length_drop]; omega)]
      congr 2
      · conv_rhs => rw [← List.take_append_drop 1024 body]
        simp [List.append_assoc]
      · simp [List.length_append, List.length_take, List.length_drop]
        omega

/-- Claim C9 (amended): for every stream positioned at a null-terminated
key, `parse_ename` with `decode=True` *never* raises on malformed UTF-8
and has no failure toggle: it attempts UTF-8 decoding and, exactly when
the accumulated bytes are not valid UTF-8, silently returns the raw
bytes instead; the cursor ends just past the terminator. -/
theorem c9_parse_ename_never_fails (pre body rest : List Nat) (st : Stream)
    (hdata : st.data = pre ++ body ++ (0 :: rest))
    (hpos : st.pos = pre.length)
    (hz : ∀ b ∈ body, b ≠ 0) :
    parse_ename st true
      = .ok ((if utf8Valid body then DKey.str body else DKey.bytes body),
             ⟨st.data, pre.length + body.length + 1⟩) := by
  rw [parse_ename]
  have hfuel : body.length < 1024 * (st.data.length + 1) := by
    have : body.length ≤ st.data.length := by
      rw [hdata]
      simp [List.length_append]
      omega
    omega
  rw [parse_ename_loop_spec (st.data.length + 1) pre body rest [] st hdata hpos hz
    hfuel]
  rw [eBind_ok, parse_ename_finish]
  simp only [List.nil_append]
  rw [List.getLast?_concat]
  simp only [if_pos rfl, List.dropLast_concat]
  by_cases hu : utf8Valid body
  · rw [if_pos hu, if_pos hu]
    simp
  · rw [if_neg hu, if_neg hu]
    simp

/-- Witness for C9 at the invalid-UTF-8 key `C3 28`: the fallback path
returns the raw bytes without error. -/
theorem c9_parse_ename_never_fails_witness :
    ((⟨[195, 40, 0, 7], 0⟩ : Stream).data
        = ([] : List Nat) ++ [195, 40] ++ (0 :: [7])
     ∧ (⟨[195, 40, 0, 7], 0⟩ : Stream).pos = ([] : List Nat).length
     ∧ (∀ b ∈ ([195, 40] : List Nat), b ≠ 0))
    ∧ parse_ename ⟨[195, 40, 0, 7], 0⟩ true
      = .ok ((if utf8Valid [195, 40] then DKey.str [195, 40]
              else DKey.bytes [195, 40]),
             ⟨(⟨[195, 40, 0, 7], 0⟩ : Stream).data,
              ([] : List Nat).length + ([195, 40] : List Nat).length + 1⟩) :=
  ⟨⟨rfl, rfl, by decide⟩,
   c9_parse_ename_never_fails [] [195, 40] [7] ⟨[195, 40, 0, 7], 0⟩ rfl rfl
     (by decide)⟩

end Ibson
